import Mathlib

/-!
# Negotiation coordinator of hello-screensharing

A shallow embedding of the two demo scripts `js/main.js` and
`js/common-screensharing-main.js`.  Both scripts keep the same pair of session
slots (`senderPC`, `receiverPC`) and the same message handlers; they differ in
the media they hold (`localStream` against `videoStream` / `combinedStream`),
in what `hangup` releases and in what `handleAnswer` does afterwards.  The
difference is carried by `Env.variant`.

Modelling conventions.

* A JavaScript variable that is `undefined`, `null` or an object is an
  `Option`; `if (x)` on such a variable is a match on `some` / `none`.
* An `async` handler is cut at its `await` points.  A handler runs one
  segment at a time: `Step.status` says whether the segment ended the handler
  (`done`), ended it with an exception (`threw`), or suspended it at an await
  point (`await k`); `resume` runs the next segment once the awaited promise
  has settled, with the settlement supplied by the environment.
* Everything a segment does to the outside (engine construction, engine
  method calls, `postMessage`, media calls) is recorded, in order, in
  `Step.events`.  Console output and DOM elements other than the two buttons
  are not recorded.
* `await f()` on one of the script's own `async` functions suspends the
  caller only after `f` has run as far as it goes by itself.  Where nothing
  follows such an await in the caller (`await makeCall()`, `await
  handleOffer(..)`, `await hangup()` in the `bye` case) the caller's last, empty
  segment is left out; `hangupButton.onclick`, which publishes after
  `await hangup()`, has the await point `Cont.hangupClick_hangup`.
* `new RTCPeerConnection()`, `new RTCSessionDescription(..)`, `close()` and
  `track.stop()` are taken to return normally.  `new RTCIceCandidate(..)`
  follows the constructor steps of the WebRTC recommendation and throws when
  the message names neither a media id nor a media line.  `addTrack` may throw
  (`Env.addTrackThrows`), and every awaited engine or media promise may be
  rejected.
-/

namespace Screenshare

/-- Which of the two scripts is running. -/
inductive Variant
  | main
  | common
  deriving DecidableEq, Repr

/-- Handle of an `RTCPeerConnection` object; handles are handed out in order. -/
abbrev PC := Nat

inductive Kind
  | audio
  | video
  deriving DecidableEq, Repr

structure Track where
  kind : Kind
  id : Nat
  deriving DecidableEq, Repr

/-- A `MediaStream`, as the list `getTracks()` returns. -/
abbrev MediaStream := List Track

/-- The two `BroadcastChannel('webrtc')` objects of a script. -/
inductive Chan
  | senderChannel
  | receiverChannel
  deriving DecidableEq, Repr

inductive Role
  | sender
  | receiver
  deriving DecidableEq, Repr

/-- The payload fields of a `candidate` message; `none` is an absent or
`null` field. -/
structure CandidateData where
  candidate : Option String
  sdpMid : Option String
  sdpMLineIndex : Option Nat
  deriving DecidableEq, Repr

/-- The value of `e.data`, by its `type` field. -/
inductive Msg
  | ready
  | offer (sdp : String)
  | answer (sdp : String)
  | candidate (c : CandidateData)
  | bye
  | unknown (type : String)
  deriving DecidableEq, Repr

/-- The object `new RTCIceCandidate(candidate)` builds from a message. -/
structure IceCandidate where
  candidate : String
  sdpMid : Option String
  sdpMLineIndex : Option Nat
  deriving DecidableEq, Repr

inductive SdpType
  | offer
  | answer
  deriving DecidableEq, Repr

/-- A method invoked on an engine instance. -/
inductive EngineOp
  | createOffer
  | createAnswer
  | setLocalDescription (sdp : String)
  | setRemoteDescription (type : SdpType) (sdp : String)
  | addIceCandidate (c : Option IceCandidate)
  | addTrack (t : Track)
  | close
  deriving DecidableEq, Repr

inductive Event
  | construct (role : Role) (pc : PC)
  | engine (pc : PC) (op : EngineOp)
  | postMessage (ch : Chan) (m : Msg)
  | stop (t : Track)
  | getUserMedia
  | getDisplayMedia
  | playAudioOnDevice
  deriving DecidableEq, Repr

/-- The module-level variables of a script, the two buttons, and the supply
of engine handles. -/
structure State where
  senderPC : Option PC
  receiverPC : Option PC
  localStream : Option MediaStream
  videoStream : Option MediaStream
  combinedStream : Option MediaStream
  startDisabled : Bool
  hangupDisabled : Bool
  nextPC : Nat
  deriving DecidableEq, Repr

/-- The state right after the script has loaded. -/
def State.init : State :=
  { senderPC := none, receiverPC := none, localStream := none, videoStream := none,
    combinedStream := none, startDisabled := false, hangupDisabled := true, nextPC := 0 }

/-- What the surroundings of the coordinator decide. -/
structure Env where
  variant : Variant
  /-- whether `pc.addTrack(track, ..)` throws -/
  addTrackThrows : PC → Track → Bool
  /-- the audio graph of `startButton.onclick` in `main.js`: the tracks of
  `dest.stream` for a microphone stream and a display stream, `none` when
  building the graph throws -/
  mix : MediaStream → MediaStream → Option MediaStream

/-- How an awaited promise settled.  `sdp` is read by the awaits of
`createOffer` / `createAnswer`, `tracks` by the awaits of the media calls. -/
inductive Settled
  | rejected
  | fulfilled (sdp : String) (tracks : MediaStream)
  deriving DecidableEq, Repr

/-- The await points of the handlers, with the locals that are live there. -/
inductive Cont
  | makeCall_createOffer
  | makeCall_setLocalDescription (offer : String)
  | handleOffer_setRemoteDescription
  | handleOffer_createAnswer
  | handleOffer_setLocalDescription (answer : String)
  | handleAnswer_setRemoteDescription
  | handleCandidate_addIceCandidate
  | start_getUserMedia
  | start_getDisplayMedia (mic : MediaStream)
  | hangupClick_hangup
  deriving DecidableEq, Repr

inductive Status
  | done
  | threw
  | await (k : Cont)
  deriving DecidableEq, Repr

/-- The result of running one segment of a handler. -/
structure Step where
  state : State
  events : List Event
  status : Status
  deriving DecidableEq, Repr

/-- `stream.getTracks().forEach(track => pc.addTrack(track, stream))`: the
calls made, and whether the loop ran to its end. -/
def addTracks (env : Env) (pc : PC) : List Track → List Event × Bool
  | [] => ([], true)
  | t :: ts =>
    if env.addTrackThrows pc t then ([Event.engine pc (EngineOp.addTrack t)], false)
    else
      let r := addTracks env pc ts
      (Event.engine pc (EngineOp.addTrack t) :: r.1, r.2)

/-- `createSenderPeerConnection()`.  The slot is assigned first; reading the
tracks of a stream that is not there, or an `addTrack` that throws, ends the
function with the slot already assigned. -/
def createSenderPeerConnection (env : Env) (s : State) : Step :=
  let pc := s.nextPC
  let s1 := { s with senderPC := some pc, nextPC := s.nextPC + 1 }
  match env.variant with
  | Variant.main =>
    match s.combinedStream with
    | none => ⟨s1, [Event.construct Role.sender pc], Status.threw⟩
    | some cs =>
      let a := addTracks env pc cs
      if a.2 then
        match s.videoStream with
        | none => ⟨s1, Event.construct Role.sender pc :: a.1, Status.threw⟩
        | some vs =>
          let b := addTracks env pc vs
          ⟨s1, Event.construct Role.sender pc :: (a.1 ++ b.1),
            if b.2 then Status.done else Status.threw⟩
      else ⟨s1, Event.construct Role.sender pc :: a.1, Status.threw⟩
  | Variant.common =>
    match s.localStream with
    | none => ⟨s1, [Event.construct Role.sender pc], Status.threw⟩
    | some ls =>
      let a := addTracks env pc ls
      ⟨s1, Event.construct Role.sender pc :: a.1, if a.2 then Status.done else Status.threw⟩

/-- `createReceiverPeerConnection()`. -/
def createReceiverPeerConnection (s : State) : Step :=
  ⟨{ s with receiverPC := some s.nextPC, nextPC := s.nextPC + 1 },
    [Event.construct Role.receiver s.nextPC], Status.done⟩

/-- The message `pc.onicecandidate` builds from the event. -/
def candidateMessage (e : Option IceCandidate) : Msg :=
  match e with
  | none => Msg.candidate ⟨none, none, none⟩
  | some c => Msg.candidate ⟨some c.candidate, c.sdpMid, c.sdpMLineIndex⟩

/-- `senderPC.onicecandidate` / `receiverPC.onicecandidate`. -/
def onicecandidate (role : Role) (e : Option IceCandidate) (s : State) : Step :=
  match role with
  | Role.sender => ⟨s, [Event.postMessage Chan.senderChannel (candidateMessage e)], Status.done⟩
  | Role.receiver =>
    ⟨s, [Event.postMessage Chan.receiverChannel (candidateMessage e)], Status.done⟩

/-- `hangup()`.  It has no await point. -/
def hangup (env : Env) (s : State) : Step :=
  let e1 := match s.senderPC with
    | some pc => [Event.engine pc EngineOp.close]
    | none => []
  let e2 := match s.receiverPC with
    | some pc => [Event.engine pc EngineOp.close]
    | none => []
  let s2 := { s with senderPC := none, receiverPC := none }
  match env.variant with
  | Variant.main =>
    ⟨{ s2 with startDisabled := false, hangupDisabled := true }, e1 ++ e2, Status.done⟩
  | Variant.common =>
    match s.localStream with
    | none => ⟨s2, e1 ++ e2, Status.threw⟩
    | some ls =>
      ⟨{ s2 with localStream := none, startDisabled := false, hangupDisabled := true },
        e1 ++ e2 ++ ls.map Event.stop, Status.done⟩

/-- `makeCall()` up to its first await. -/
def makeCall (env : Env) (s : State) : Step :=
  let c := createSenderPeerConnection env s
  match c.status with
  | Status.done =>
    match c.state.senderPC with
    | some pc =>
      ⟨c.state, c.events ++ [Event.engine pc EngineOp.createOffer],
        Status.await Cont.makeCall_createOffer⟩
    | none => ⟨c.state, c.events, Status.threw⟩
  | Status.threw => c
  | Status.await _ => c

/-- `handleOffer(offer)` up to its first await. -/
def handleOffer (sdp : String) (s : State) : Step :=
  match s.receiverPC with
  | some _ => ⟨s, [], Status.done⟩
  | none =>
    let c := createReceiverPeerConnection s
    match c.state.receiverPC with
    | some pc =>
      ⟨c.state, c.events ++ [Event.engine pc (EngineOp.setRemoteDescription SdpType.offer sdp)],
        Status.await Cont.handleOffer_setRemoteDescription⟩
    | none => ⟨c.state, c.events, Status.threw⟩

/-- `handleAnswer(answer)` up to its await. -/
def handleAnswer (sdp : String) (s : State) : Step :=
  match s.senderPC with
  | none => ⟨s, [], Status.done⟩
  | some pc =>
    ⟨s, [Event.engine pc (EngineOp.setRemoteDescription SdpType.answer sdp)],
      Status.await Cont.handleAnswer_setRemoteDescription⟩

/-- JavaScript truthiness of `candidate.candidate`: absent, `null` and the
empty string are falsy. -/
def truthy (c : Option String) : Bool :=
  match c with
  | none => false
  | some str => str != ""

/-- `new RTCIceCandidate(candidate)`, after the constructor steps of the
WebRTC recommendation: a `TypeError` (`none`) when `sdpMid` and
`sdpMLineIndex` are both absent or `null`; otherwise the fields of the message,
with the empty string for a candidate field that is not there and
`sdpMLineIndex` converted to an unsigned short. -/
def RTCIceCandidate (c : CandidateData) : Option IceCandidate :=
  match c.sdpMid, c.sdpMLineIndex with
  | none, none => none
  | mid, index => some ⟨c.candidate.getD "", mid, index.map (fun n => n % 65536)⟩

/-- `handleCandidate(candidate, pc)` up to its await. -/
def handleCandidate (c : CandidateData) (pc : Option PC) (s : State) : Step :=
  match pc with
  | none => ⟨s, [], Status.done⟩
  | some p =>
    if truthy c.candidate then
      match RTCIceCandidate c with
      | none => ⟨s, [], Status.threw⟩
      | some ice =>
        ⟨s, [Event.engine p (EngineOp.addIceCandidate (some ice))],
          Status.await Cont.handleCandidate_addIceCandidate⟩
    else
      ⟨s, [Event.engine p (EngineOp.addIceCandidate none)],
        Status.await Cont.handleCandidate_addIceCandidate⟩

/-- `senderChannel.onmessage` up to the first await. -/
def senderChannel_onmessage (m : Msg) (s : State) : Step :=
  match m with
  | Msg.answer sdp => handleAnswer sdp s
  | Msg.candidate c => handleCandidate c s.senderPC s
  | _ => ⟨s, [], Status.done⟩

/-- `receiverChannel.onmessage` up to the first await. -/
def receiverChannel_onmessage (env : Env) (m : Msg) (s : State) : Step :=
  match m with
  | Msg.offer sdp => handleOffer sdp s
  | Msg.candidate c => handleCandidate c s.receiverPC s
  | Msg.ready =>
    match s.senderPC with
    | some _ => ⟨s, [], Status.done⟩
    | none => makeCall env s
  | Msg.bye =>
    match s.senderPC with
    | some _ => hangup env s
    | none => ⟨s, [], Status.done⟩
  | _ => ⟨s, [], Status.done⟩

/-- The handler a channel runs for a delivered message. -/
def onmessage (env : Env) (ch : Chan) (m : Msg) (s : State) : Step :=
  match ch with
  | Chan.senderChannel => senderChannel_onmessage m s
  | Chan.receiverChannel => receiverChannel_onmessage env m s

/-- `startButton.onclick` up to its first await. -/
def startButton_onclick (env : Env) (s : State) : Step :=
  match env.variant with
  | Variant.main => ⟨s, [Event.getUserMedia], Status.await Cont.start_getUserMedia⟩
  | Variant.common => ⟨s, [Event.getDisplayMedia], Status.await (Cont.start_getDisplayMedia [])⟩

/-- `hangupButton.onclick` up to `await hangup()`.  When `hangup()` throws,
the promise awaited is a rejected one and the handler ends there. -/
def hangupButton_onclick (env : Env) (s : State) : Step :=
  let h := hangup env s
  match h.status with
  | Status.done => ⟨h.state, h.events, Status.await Cont.hangupClick_hangup⟩
  | Status.threw => h
  | Status.await _ => h

/-- The segment of a suspended handler that follows the await point `k`,
given how the awaited promise settled.  The slots are read again from the
state, as the handlers read the module-level variables again.  At
`hangupClick_hangup` the promise is the one `hangup()` returned, which is
fulfilled, so the settlement is not looked at there. -/
def resume (env : Env) (k : Cont) (r : Settled) (s : State) : Step :=
  match k, r with
  | Cont.hangupClick_hangup, _ =>
    ⟨s, [Event.postMessage Chan.receiverChannel Msg.bye], Status.done⟩
  | _, Settled.rejected => ⟨s, [], Status.threw⟩
  | Cont.makeCall_createOffer, Settled.fulfilled offer _ =>
    match s.senderPC with
    | none => ⟨s, [], Status.threw⟩
    | some pc =>
      ⟨s, [Event.engine pc (EngineOp.setLocalDescription offer)],
        Status.await (Cont.makeCall_setLocalDescription offer)⟩
  | Cont.makeCall_setLocalDescription offer, Settled.fulfilled _ _ =>
    ⟨s, [Event.postMessage Chan.senderChannel (Msg.offer offer)], Status.done⟩
  | Cont.handleOffer_setRemoteDescription, Settled.fulfilled _ _ =>
    match s.receiverPC with
    | none => ⟨s, [], Status.threw⟩
    | some pc =>
      ⟨s, [Event.engine pc EngineOp.createAnswer], Status.await Cont.handleOffer_createAnswer⟩
  | Cont.handleOffer_createAnswer, Settled.fulfilled answer _ =>
    match s.receiverPC with
    | none => ⟨s, [], Status.threw⟩
    | some pc =>
      ⟨s, [Event.engine pc (EngineOp.setLocalDescription answer)],
        Status.await (Cont.handleOffer_setLocalDescription answer)⟩
  | Cont.handleOffer_setLocalDescription answer, Settled.fulfilled _ _ =>
    ⟨s, [Event.postMessage Chan.receiverChannel (Msg.answer answer)], Status.done⟩
  | Cont.handleAnswer_setRemoteDescription, Settled.fulfilled _ _ =>
    match env.variant with
    | Variant.main => ⟨s, [Event.playAudioOnDevice], Status.done⟩
    | Variant.common => ⟨s, [], Status.done⟩
  | Cont.handleCandidate_addIceCandidate, Settled.fulfilled _ _ => ⟨s, [], Status.done⟩
  | Cont.start_getUserMedia, Settled.fulfilled _ mic =>
    ⟨s, [Event.getDisplayMedia], Status.await (Cont.start_getDisplayMedia mic)⟩
  | Cont.start_getDisplayMedia mic, Settled.fulfilled _ stream =>
    match env.variant with
    | Variant.main =>
      match env.mix mic stream with
      | none => ⟨s, [], Status.threw⟩
      | some dest =>
        ⟨{ s with videoStream := some (stream.filter (fun t => t.kind = Kind.video)),
                  combinedStream := some dest, startDisabled := true, hangupDisabled := false },
          [Event.postMessage Chan.senderChannel Msg.ready], Status.done⟩
    | Variant.common =>
      ⟨{ s with localStream := some stream, startDisabled := true, hangupDisabled := false },
        [Event.postMessage Chan.senderChannel Msg.ready], Status.done⟩

/-- A handler run on its own: the segments that follow `st`, each awaited
promise settling as the list says, until the handler ends or the list does. -/
def run (env : Env) : List Settled → Step → Step
  | [], st => st
  | r :: rs, st =>
    match st.status with
    | Status.await k =>
      let n := resume env k r st.state
      run env rs ⟨n.state, st.events ++ n.events, n.status⟩
    | _ => st

/-- `hangupButton.onclick` run to its end (`endCall`). -/
def endCall (env : Env) (s : State) : Step :=
  run env [Settled.fulfilled "" []] (hangupButton_onclick env s)

/-! ### Vocabulary of the properties -/

/-- The slot a `candidate` message delivered on `ch` is routed to. -/
def slotOf (ch : Chan) (s : State) : Option PC :=
  match ch with
  | Chan.senderChannel => s.senderPC
  | Chan.receiverChannel => s.receiverPC

def Event.isEngine : Event → Bool
  | Event.engine _ _ => true
  | _ => false

def Event.isPost : Event → Bool
  | Event.postMessage _ _ => true
  | _ => false

def Event.isBye : Event → Bool
  | Event.postMessage _ Msg.bye => true
  | _ => false

def Event.isConstruct (role : Role) : Event → Bool
  | Event.construct r _ => r = role
  | _ => false

/-- The engines `close()` is invoked on, in order. -/
def closed : List Event → List PC
  | [] => []
  | Event.engine pc EngineOp.close :: es => pc :: closed es
  | _ :: es => closed es

/-- The number of `new RTCPeerConnection()` made for a role. -/
def constructed (role : Role) (es : List Event) : Nat :=
  (es.filter (Event.isConstruct role)).length

/-- The number of `bye` messages published. -/
def byes (es : List Event) : Nat :=
  (es.filter Event.isBye).length

/-- The await points of `makeCall` and `handleOffer`. -/
def Cont.negotiating : Cont → Bool
  | Cont.makeCall_createOffer => true
  | Cont.makeCall_setLocalDescription _ => true
  | Cont.handleOffer_setRemoteDescription => true
  | Cont.handleOffer_createAnswer => true
  | Cont.handleOffer_setLocalDescription _ => true
  | _ => false

/-- The message a handler publishes when it is resumed from its last await
point with a fulfilled promise. -/
def Cont.lastPost : Cont → Option Event
  | Cont.makeCall_setLocalDescription offer =>
    some (Event.postMessage Chan.senderChannel (Msg.offer offer))
  | Cont.handleOffer_setLocalDescription answer =>
    some (Event.postMessage Chan.receiverChannel (Msg.answer answer))
  | _ => none

/-- The slot a handler suspended at `k` reads when it goes on. -/
def Cont.slot : Cont → State → Option PC
  | Cont.makeCall_createOffer, s => s.senderPC
  | Cont.makeCall_setLocalDescription _, s => s.senderPC
  | Cont.handleOffer_setRemoteDescription, s => s.receiverPC
  | Cont.handleOffer_createAnswer, s => s.receiverPC
  | Cont.handleOffer_setLocalDescription _, s => s.receiverPC
  | _, _ => none

/-- Whether attaching the local tracks to the engine `pc` in
`createSenderPeerConnection` fails: a stream it reads is not there, or an
`addTrack` throws. -/
def attachFails (env : Env) (s : State) (pc : PC) : Bool :=
  match env.variant with
  | Variant.main =>
    match s.combinedStream, s.videoStream with
    | some cs, some vs => cs.any (env.addTrackThrows pc) || vs.any (env.addTrackThrows pc)
    | _, _ => true
  | Variant.common =>
    match s.localStream with
    | some ls => ls.any (env.addTrackThrows pc)
    | none => true

/-- The settlements of awaits that all succeed. -/
def allFulfilled (rs : List Settled) : Bool :=
  rs.all (fun r => r != Settled.rejected)

/-! ### Everything that can happen to one script -/

/-- The things the event loop can run next. -/
inductive Input
  | message (ch : Chan) (m : Msg)
  | startClick
  | hangupClick
  | icecandidate (role : Role) (e : Option IceCandidate)
  | settled (k : Cont) (r : Settled)
  deriving DecidableEq, Repr

/-- One turn of the event loop.  A click on a disabled button runs no
handler. -/
def segment (env : Env) (i : Input) (s : State) : Step :=
  match i with
  | Input.message ch m => onmessage env ch m s
  | Input.startClick =>
    if s.startDisabled then ⟨s, [], Status.done⟩ else startButton_onclick env s
  | Input.hangupClick =>
    if s.hangupDisabled then ⟨s, [], Status.done⟩ else hangupButton_onclick env s
  | Input.icecandidate role e => onicecandidate role e s
  | Input.settled k r => resume env k r s

/-- A click on the hangup button, followed to the end of the handler it
starts, if it starts one. -/
def hangupClick (env : Env) (s : State) : Step :=
  run env [Settled.fulfilled "" []] (segment env Input.hangupClick s)

/-- The states a script can be in: the loaded script followed by any turns
of the event loop (any continuation may be resumed at any time, which covers
every real order of resumption). -/
inductive Reachable (env : Env) : State → Prop
  | init : Reachable env State.init
  | turn (i : Input) (s : State) : Reachable env s → Reachable env (segment env i s).state

/-- A reachable state together with everything the script has done to the
outside on the way there. -/
inductive History (env : Env) : State → List Event → Prop
  | init : History env State.init []
  | turn (i : Input) (s : State) (log : List Event) :
      History env s log → History env (segment env i s).state (log ++ (segment env i s).events)

/-- The event loop run over a list of inputs, from a state and the log of
what has been done so far. -/
def play (env : Env) : List Input → State × List Event → State × List Event
  | [], p => p
  | i :: rest, p =>
    play env rest ((segment env i p.1).state, p.2 ++ (segment env i p.1).events)

/-! ### Two handlers interleaved -/

/-- A handler in the queue of the event loop. -/
inductive Task
  | queued (ch : Chan) (m : Msg)
  | suspended (k : Cont)
  | ended
  deriving DecidableEq, Repr

def Task.ofStatus : Status → Task
  | Status.await k => Task.suspended k
  | _ => Task.ended

/-- The next segment of a handler: its first one when the message has not
been handled yet, the one after its await point otherwise. -/
def Task.advance (env : Env) (t : Task) (r : Settled) (s : State) : Step :=
  match t with
  | Task.queued ch m => onmessage env ch m s
  | Task.suspended k => resume env k r s
  | Task.ended => ⟨s, [], Status.done⟩

structure Pool where
  state : State
  events : List Event
  first : Task
  second : Task
  deriving DecidableEq, Repr

/-- Two handlers run under a schedule: each entry says which handler runs
its next segment (`false` the first, `true` the second) and how the promise
it was waiting for settled.  Control changes hands only between segments. -/
def runTwo (env : Env) : List (Bool × Settled) → Pool → Pool
  | [], p => p
  | (b, r) :: rest, p =>
    if b then
      let n := p.second.advance env r p.state
      runTwo env rest ⟨n.state, p.events ++ n.events, p.first, Task.ofStatus n.status⟩
    else
      let n := p.first.advance env r p.state
      runTwo env rest ⟨n.state, p.events ++ n.events, Task.ofStatus n.status, p.second⟩

/-! ### Two scripts on one bus -/

/-- Whether a handler made this script the offerer: it went into `makeCall`
and constructed a sender engine. -/
def isOfferer (st : Step) : Bool :=
  st.events.any (Event.isConstruct Role.sender)

/-- One `ready` broadcast, observed on the receiver channel of two scripts. -/
def broadcastReady (envA envB : Env) (a b : State) : Step × Step :=
  (onmessage envA Chan.receiverChannel Msg.ready a,
   onmessage envB Chan.receiverChannel Msg.ready b)

/-- How many of the two scripts became the offerer. -/
def offerers (p : Step × Step) : Nat :=
  (if isOfferer p.1 then 1 else 0) + (if isOfferer p.2 then 1 else 0)

/-! ### Invariants -/

/-- The forms a `ready` handler takes while it runs. -/
def ReadyTask (t : Task) : Prop :=
  t = Task.queued Chan.receiverChannel Msg.ready ∨ t = Task.suspended Cont.makeCall_createOffer ∨
  (∃ o, t = Task.suspended (Cont.makeCall_setLocalDescription o)) ∨ t = Task.ended

/-- The slots hold engines that have been handed out, and never the same one. -/
def SlotsDistinct (s : State) : Prop :=
  (∀ pc, s.senderPC = some pc → pc < s.nextPC) ∧
  (∀ pc, s.receiverPC = some pc → pc < s.nextPC) ∧
  (∀ pc, s.senderPC = some pc → s.receiverPC ≠ some pc)

/-- In `common-screensharing-main.js` the hangup button is enabled only
while the local stream is held. -/
def HangupGate (env : Env) (s : State) : Prop :=
  env.variant = Variant.common → s.hangupDisabled = false → s.localStream.isSome = true

/-- No engine that has been closed sits in a slot, and every closed engine
is one that has been handed out. -/
def Unclosed (s : State) (log : List Event) : Prop :=
  ∀ pc ∈ closed log, pc < s.nextPC ∧ s.senderPC ≠ some pc ∧ s.receiverPC ≠ some pc

/-- What a segment started in `s` can have done to the slots: either it
closed nothing and each slot is as before or holds the engine just handed
out, or it closed what the slots held and emptied both. -/
def SlotEffect (s : State) (st : Step) : Prop :=
  (closed st.events = [] ∧
    (st.state.senderPC = s.senderPC ∨ st.state.senderPC = some s.nextPC) ∧
    (st.state.receiverPC = s.receiverPC ∨ st.state.receiverPC = some s.nextPC) ∧
    s.nextPC ≤ st.state.nextPC) ∨
  (closed st.events = s.senderPC.toList ++ s.receiverPC.toList ∧
    st.state.senderPC = none ∧ st.state.receiverPC = none ∧ st.state.nextPC = s.nextPC)

/-- The forms an `offer` handler takes while it runs. -/
def OfferTask (t : Task) : Prop :=
  (∃ sdp, t = Task.queued Chan.receiverChannel (Msg.offer sdp)) ∨
  t = Task.suspended Cont.handleOffer_setRemoteDescription ∨
  t = Task.suspended Cont.handleOffer_createAnswer ∨
  (∃ a, t = Task.suspended (Cont.handleOffer_setLocalDescription a)) ∨ t = Task.ended

/-- The handlers `T` guard the slot `slot` of `role`: a segment of such a
handler leaves a handler of the same family, constructs no engine for the role
when the slot is occupied, and when the slot is empty either constructs one and
fills the slot or constructs none and leaves it empty. -/
def Guards (env : Env) (role : Role) (slot : State → Option PC) (T : Task → Prop) : Prop :=
  ∀ (t : Task) (r : Settled) (s : State), T t →
    T (Task.ofStatus (t.advance env r s).status) ∧
    ((slot s).isSome = true →
      (slot (t.advance env r s).state).isSome = true ∧
      constructed role (t.advance env r s).events = 0) ∧
    (slot s = none →
      (constructed role (t.advance env r s).events = 1 ∧
        (slot (t.advance env r s).state).isSome = true) ∨
      (constructed role (t.advance env r s).events = 0 ∧
        slot (t.advance env r s).state = none))

/-! ### Sample environments and states -/

/-- `common-screensharing-main.js` with an engine that accepts every track. -/
def commonEnv : Env := ⟨Variant.common, fun _ _ => false, fun _ _ => none⟩

/-- `main.js` with an engine that accepts every track and a mixer that
returns the microphone tracks. -/
def mainEnv : Env := ⟨Variant.main, fun _ _ => false, fun mic _ => some mic⟩

/-- A tab of `common-screensharing-main.js` after a successful start. -/
def startedCommon : State :=
  { State.init with
    localStream := some [⟨Kind.audio, 1⟩, ⟨Kind.video, 2⟩],
    startDisabled := true, hangupDisabled := false }

/-- A tab of `main.js` after a successful start. -/
def startedMain : State :=
  { State.init with
    videoStream := some [⟨Kind.video, 2⟩], combinedStream := some [⟨Kind.audio, 1⟩],
    startDisabled := true, hangupDisabled := false }

/-- A tab of `common-screensharing-main.js` in a call: both slots hold an
engine. -/
def inCallCommon : State :=
  { startedCommon with senderPC := some 0, receiverPC := some 1, nextPC := 2 }

/-- A `candidate` message whose candidate field is the empty string. -/
def emptyCandidate : CandidateData := ⟨some "", some "0", some 0⟩

/-- The started tab of `common-screensharing-main.js` while its `ready`
handler waits for `createOffer`. -/
def offering : Step :=
  onmessage commonEnv Chan.receiverChannel Msg.ready startedCommon

/-- The same handler one await further on, waiting for `setLocalDescription`. -/
def offerCreated : Step :=
  run commonEnv [Settled.fulfilled "o" []] offering

/-- One tab of `common-screensharing-main.js` calling itself: start, the
`ready` it observes on its own receiver channel, the offer it makes, and that
offer observed on its receiver channel. -/
def sampleCall : List Input :=
  [Input.startClick,
   Input.settled (Cont.start_getDisplayMedia [])
     (Settled.fulfilled "" [⟨Kind.audio, 1⟩, ⟨Kind.video, 2⟩]),
   Input.message Chan.receiverChannel Msg.ready,
   Input.settled Cont.makeCall_createOffer (Settled.fulfilled "o" []),
   Input.settled (Cont.makeCall_setLocalDescription "o") (Settled.fulfilled "" []),
   Input.message Chan.receiverChannel (Msg.offer "o")]

/-- The state and the log after `sampleCall`. -/
def afterSampleCall : State × List Event :=
  play commonEnv sampleCall (State.init, [])

/-- The same tab after it has then hung up: both slots empty, the local
stream released, the hangup button disabled. -/
def afterSampleHangup : State × List Event :=
  play commonEnv
    (sampleCall ++ [Input.hangupClick,
      Input.settled Cont.hangupClick_hangup (Settled.fulfilled "" [])])
    (State.init, [])

/-- A `candidate` message that names neither a media id nor a media line. -/
def bareCandidate : CandidateData := ⟨some "candidate:1 1 udp 1 192.0.2.1 9 typ host", none, none⟩

/-- A well-formed `candidate` message. -/
def hostCandidate : CandidateData :=
  ⟨some "candidate:1 1 udp 1 192.0.2.1 9 typ host", some "0", some 0⟩

/-- The started tab hangs up while its `ready` handler waits for
`createOffer`, is started again and observes the new `ready`: the state in
which the first handler is then resumed. -/
def callAgain : State :=
  (play commonEnv
    [Input.startClick,
     Input.settled (Cont.start_getDisplayMedia [])
       (Settled.fulfilled "" [⟨Kind.audio, 3⟩, ⟨Kind.video, 4⟩]),
     Input.message Chan.receiverChannel Msg.ready]
    ((hangup commonEnv offering.state).state, [])).1

end Screenshare


namespace Screenshare

/-! ### Lists of events -/

theorem closed_append (a b : List Event) : closed (a ++ b) = closed a ++ closed b := by
  induction a with
  | nil => rfl
  | cons e es ih =>
    cases e with
    | engine pc op => cases op <;> simp [closed, ih]
    | _ => simp [closed, ih]

theorem closed_map_stop (ls : List Track) : closed (ls.map Event.stop) = [] := by
  induction ls with
  | nil => rfl
  | cons t ts ih => simp [closed, ih]

theorem closed_addTracks (env : Env) (pc : PC) (ts : List Track) :
    closed (addTracks env pc ts).1 = [] := by
  induction ts with
  | nil => rfl
  | cons t ts ih =>
    unfold addTracks
    split <;> simp [closed, ih]

theorem addTracks_no_post (env : Env) (pc : PC) (ts : List Track) :
    ∀ e ∈ (addTracks env pc ts).1, e.isPost = false ∧ ∀ r, e.isConstruct r = false := by
  induction ts with
  | nil => simp [addTracks]
  | cons t ts ih =>
    unfold addTracks
    split
    · simp [Event.isPost, Event.isConstruct]
    · simpa [Event.isPost, Event.isConstruct] using ih

/-! ### `hangup` -/

theorem hangup_slots (env : Env) (s : State) :
    (hangup env s).state.senderPC = none ∧ (hangup env s).state.receiverPC = none := by
  unfold hangup
  cases env.variant <;> cases s.localStream <;> simp

theorem hangup_closed (env : Env) (s : State) :
    closed (hangup env s).events = s.senderPC.toList ++ s.receiverPC.toList := by
  unfold hangup
  cases env.variant <;> cases s.localStream <;> cases s.senderPC <;> cases s.receiverPC <;>
    simp [closed, closed_append, closed_map_stop]

theorem hangup_no_post (env : Env) (s : State) :
    ∀ e ∈ (hangup env s).events, e.isPost = false := by
  unfold hangup
  cases env.variant <;> cases s.localStream <;> cases s.senderPC <;> cases s.receiverPC <;>
    simp [Event.isPost]

theorem hangup_status (env : Env) (s : State) :
    (hangup env s).status = Status.done ∨ (hangup env s).status = Status.threw := by
  unfold hangup
  cases env.variant <;> cases s.localStream <;> simp

theorem hangup_done_iff (env : Env) (s : State) :
    (hangup env s).status = Status.done ↔
      (env.variant = Variant.main ∨ s.localStream.isSome = true) := by
  unfold hangup
  cases env.variant <;> cases s.localStream <;> simp

/-! ### `endCall` -/

theorem endCall_eq (env : Env) (s : State) :
    endCall env s =
      match (hangup env s).status with
      | Status.done =>
        ⟨(hangup env s).state,
          (hangup env s).events ++ [Event.postMessage Chan.receiverChannel Msg.bye], Status.done⟩
      | _ => hangup env s := by
  rcases hangup_status env s with h | h <;>
    simp [endCall, hangupButton_onclick, run, resume, h]

theorem endCall_state_slots (env : Env) (s : State) :
    (endCall env s).state.senderPC = none ∧ (endCall env s).state.receiverPC = none := by
  rw [endCall_eq]
  rcases hangup_status env s with h | h <;> simp [h, hangup_slots]

theorem endCall_closed (env : Env) (s : State) :
    closed (endCall env s).events = s.senderPC.toList ++ s.receiverPC.toList := by
  rw [endCall_eq]
  rcases hangup_status env s with h | h <;>
    simp [h, closed_append, hangup_closed, closed]

theorem endCall_done_iff (env : Env) (s : State) :
    (endCall env s).status = Status.done ↔
      (env.variant = Variant.main ∨ s.localStream.isSome = true) := by
  rw [endCall_eq, ← hangup_done_iff]
  rcases hangup_status env s with h | h <;> simp [h]

theorem endCall_byes (env : Env) (s : State) :
    byes (endCall env s).events = if (endCall env s).status = Status.done then 1 else 0 := by
  have hp := hangup_no_post env s
  have hb : List.filter Event.isBye (hangup env s).events = [] := by
    rw [List.filter_eq_nil_iff]
    intro e he
    have := hp e he
    cases e <;> simp_all [Event.isPost, Event.isBye]
  rw [endCall_eq]
  rcases hangup_status env s with h | h <;>
    simp [h, byes, hb, List.filter_append, Event.isBye]

/-! ### What a turn of the event loop does to the state -/

theorem createSenderPeerConnection_state (env : Env) (s : State) :
    (createSenderPeerConnection env s).state =
      { s with senderPC := some s.nextPC, nextPC := s.nextPC + 1 } := by
  unfold createSenderPeerConnection
  cases env.variant <;> simp only [] <;> repeat (first | rfl | split)

theorem createSenderPeerConnection_status (env : Env) (s : State) :
    (createSenderPeerConnection env s).status = Status.done ∨
    (createSenderPeerConnection env s).status = Status.threw := by
  unfold createSenderPeerConnection
  cases env.variant <;> simp only [] <;> repeat (first | simp | split)

theorem makeCall_state (env : Env) (s : State) :
    (makeCall env s).state = { s with senderPC := some s.nextPC, nextPC := s.nextPC + 1 } := by
  have h := createSenderPeerConnection_state env s
  unfold makeCall
  rcases createSenderPeerConnection_status env s with hs | hs <;> simp [hs, h]

theorem constructed_append (role : Role) (a b : List Event) :
    constructed role (a ++ b) = constructed role a + constructed role b := by
  simp [constructed, List.filter_append]

theorem constructed_addTracks (env : Env) (role : Role) (pc : PC) (ts : List Track) :
    constructed role (addTracks env pc ts).1 = 0 := by
  have h := addTracks_no_post env pc ts
  simp only [constructed, List.length_eq_zero, List.filter_eq_nil_iff]
  intro e he
  simp [(h e he).2 role]

theorem createSenderPeerConnection_events (env : Env) (s : State) :
    ∃ es, (createSenderPeerConnection env s).events = Event.construct Role.sender s.nextPC :: es ∧
      closed es = [] ∧ (∀ e ∈ es, e.isPost = false ∧ ∀ r, e.isConstruct r = false) := by
  have h1 := fun ts => closed_addTracks env s.nextPC ts
  have h2 := fun ts => addTracks_no_post env s.nextPC ts
  unfold createSenderPeerConnection
  cases env.variant <;> simp only []
  · split
    · exact ⟨[], rfl, rfl, by simp⟩
    · rename_i cs _
      split
      · split
        · exact ⟨_, rfl, h1 cs, h2 cs⟩
        · rename_i vs _
          refine ⟨_, rfl, by simp [closed_append, h1], ?_⟩
          intro e he
          rcases List.mem_append.mp he with h | h
          · exact h2 cs e h
          · exact h2 vs e h
      · exact ⟨_, rfl, h1 cs, h2 cs⟩
  · split
    · exact ⟨[], rfl, rfl, by simp⟩
    · rename_i ls _
      exact ⟨_, rfl, h1 ls, h2 ls⟩

theorem makeCall_events (env : Env) (s : State) :
    ∃ es, (makeCall env s).events = Event.construct Role.sender s.nextPC :: es ∧
      closed es = [] ∧ (∀ e ∈ es, e.isPost = false ∧ ∀ r, e.isConstruct r = false) := by
  obtain ⟨es, he, hc, hp⟩ := createSenderPeerConnection_events env s
  have hst := createSenderPeerConnection_state env s
  unfold makeCall
  rcases createSenderPeerConnection_status env s with hs | hs
  · simp only [hs, hst, he]
    refine ⟨es ++ [Event.engine s.nextPC EngineOp.createOffer], by simp, ?_, ?_⟩
    · simp [closed_append, hc, closed]
    · intro e h
      rcases List.mem_append.mp h with h | h
      · exact hp e h
      · simp at h
        subst h
        simp [Event.isPost, Event.isConstruct]
  · simp only [hs]
    exact ⟨es, he, hc, hp⟩

theorem makeCall_status (env : Env) (s : State) :
    (makeCall env s).status = Status.await Cont.makeCall_createOffer ∨
    (makeCall env s).status = Status.threw := by
  have hst := createSenderPeerConnection_state env s
  unfold makeCall
  rcases createSenderPeerConnection_status env s with hs | hs <;> simp [hs, hst]

theorem makeCall_constructed (env : Env) (s : State) :
    constructed Role.sender (makeCall env s).events = 1 := by
  obtain ⟨es, he, _, hp⟩ := makeCall_events env s
  have h0 : List.filter (Event.isConstruct Role.sender) es = [] := by
    rw [List.filter_eq_nil_iff]
    intro e h
    simp [(hp e h).2 Role.sender]
  simp [constructed, he, List.filter_cons, Event.isConstruct, h0]

/-- Resuming a handler never touches a session slot, whatever the await
point and however the promise settled. -/
theorem resume_slots (env : Env) (k : Cont) (r : Settled) (s : State) :
    (resume env k r s).state.senderPC = s.senderPC ∧
    (resume env k r s).state.receiverPC = s.receiverPC ∧
    (resume env k r s).state.nextPC = s.nextPC := by
  cases k <;> cases r <;> simp only [resume] <;>
    repeat (first | simp | split)

/-- Resuming a handler constructs no engine and closes none. -/
theorem resume_events (env : Env) (k : Cont) (r : Settled) (s : State) :
    closed (resume env k r s).events = [] ∧
    ∀ role, constructed role (resume env k r s).events = 0 := by
  cases k <;> cases r <;> simp only [resume] <;>
    repeat (first | simp [closed, constructed, Event.isConstruct] | split)

/-! ### Two handlers of one kind interleaved -/

theorem handleOffer_empty (sdp : String) (s : State) (h : s.receiverPC = none) :
    handleOffer sdp s =
      ⟨{ s with receiverPC := some s.nextPC, nextPC := s.nextPC + 1 },
        [Event.construct Role.receiver s.nextPC,
          Event.engine s.nextPC (EngineOp.setRemoteDescription SdpType.offer sdp)],
        Status.await Cont.handleOffer_setRemoteDescription⟩ := by
  simp [handleOffer, h, createReceiverPeerConnection]

theorem handleOffer_occupied (sdp : String) (s : State) (h : s.receiverPC.isSome = true) :
    handleOffer sdp s = ⟨s, [], Status.done⟩ := by
  cases hr : s.receiverPC with
  | none => simp [hr] at h
  | some pc => simp [handleOffer, hr]

theorem guards_resume (env : Env) (role : Role) (k : Cont) (r : Settled) (s : State) :
    (s.senderPC.isSome = true →
      (resume env k r s).state.senderPC.isSome = true ∧
      constructed role (resume env k r s).events = 0) ∧
    (s.senderPC = none →
      constructed role (resume env k r s).events = 0 ∧ (resume env k r s).state.senderPC = none) ∧
    (s.receiverPC.isSome = true →
      (resume env k r s).state.receiverPC.isSome = true ∧
      constructed role (resume env k r s).events = 0) ∧
    (s.receiverPC = none →
      constructed role (resume env k r s).events = 0 ∧
      (resume env k r s).state.receiverPC = none) := by
  obtain ⟨a, b, _⟩ := resume_slots env k r s
  have c := (resume_events env k r s).2 role
  rw [a, b]
  exact ⟨fun h => ⟨h, c⟩, fun h => ⟨c, h⟩, fun h => ⟨h, c⟩, fun h => ⟨c, h⟩⟩

theorem guards_ready (env : Env) : Guards env Role.sender State.senderPC ReadyTask := by
  intro t r s ht
  rcases ht with h | h | ⟨o, h⟩ | h <;> subst h
  · cases hs : s.senderPC with
    | some pc =>
      simp [Task.advance, onmessage, receiverChannel_onmessage, hs, Task.ofStatus, ReadyTask,
        constructed]
    | none =>
      have he : Task.advance env (Task.queued Chan.receiverChannel Msg.ready) r s
          = makeCall env s := by
        simp [Task.advance, onmessage, receiverChannel_onmessage, hs]
      rw [he]
      refine ⟨?_, by simp, fun _ => Or.inl ⟨makeCall_constructed env s, ?_⟩⟩
      · rcases makeCall_status env s with h | h <;> simp [h, Task.ofStatus, ReadyTask]
      · simp [makeCall_state]
  · obtain ⟨h1, h2, _, _⟩ := guards_resume env Role.sender Cont.makeCall_createOffer r s
    refine ⟨?_, h1, fun h => Or.inr (h2 h)⟩
    simp only [Task.advance]
    cases r <;> cases hs : s.senderPC <;> simp [resume, hs, Task.ofStatus, ReadyTask]
  · obtain ⟨h1, h2, _, _⟩ :=
      guards_resume env Role.sender (Cont.makeCall_setLocalDescription o) r s
    refine ⟨?_, h1, fun h => Or.inr (h2 h)⟩
    simp only [Task.advance]
    cases r <;> simp [resume, Task.ofStatus, ReadyTask]
  · simp [Task.advance, Task.ofStatus, ReadyTask, constructed]

theorem guards_offer (env : Env) : Guards env Role.receiver State.receiverPC OfferTask := by
  intro t r s ht
  rcases ht with ⟨sdp, h⟩ | h | h | ⟨o, h⟩ | h <;> subst h
  · have he : Task.advance env (Task.queued Chan.receiverChannel (Msg.offer sdp)) r s
        = handleOffer sdp s := rfl
    rw [he]
    cases hs : s.receiverPC with
    | some pc =>
      rw [handleOffer_occupied sdp s (by simp [hs])]
      simp [hs, Task.ofStatus, OfferTask, constructed]
    | none =>
      rw [handleOffer_empty sdp s hs]
      simp [Task.ofStatus, OfferTask, constructed, List.filter_cons, Event.isConstruct]
  · obtain ⟨_, _, h1, h2⟩ :=
      guards_resume env Role.receiver Cont.handleOffer_setRemoteDescription r s
    refine ⟨?_, h1, fun h => Or.inr (h2 h)⟩
    simp only [Task.advance]
    cases r <;> cases hs : s.receiverPC <;> simp [resume, hs, Task.ofStatus, OfferTask]
  · obtain ⟨_, _, h1, h2⟩ := guards_resume env Role.receiver Cont.handleOffer_createAnswer r s
    refine ⟨?_, h1, fun h => Or.inr (h2 h)⟩
    simp only [Task.advance]
    cases r <;> cases hs : s.receiverPC <;> simp [resume, hs, Task.ofStatus, OfferTask]
  · obtain ⟨_, _, h1, h2⟩ :=
      guards_resume env Role.receiver (Cont.handleOffer_setLocalDescription o) r s
    refine ⟨?_, h1, fun h => Or.inr (h2 h)⟩
    simp only [Task.advance]
    cases r <;> simp [resume, Task.ofStatus, OfferTask]
  · simp [Task.advance, Task.ofStatus, OfferTask, constructed]

theorem guards_step_count (env : Env) (role : Role) (slot : State → Option PC)
    (T : Task → Prop) (hg : Guards env role slot T) (t : Task) (r : Settled) (s : State)
    (n : Nat) (ht : T t) (hn : n = 0 ∨ (n = 1 ∧ (slot s).isSome = true)) :
    n + constructed role (t.advance env r s).events = 0 ∨
    (n + constructed role (t.advance env r s).events = 1 ∧
      (slot (t.advance env r s).state).isSome = true) := by
  obtain ⟨_, hA, hB⟩ := hg t r s ht
  cases hs : slot s with
  | some pc =>
    have h := hA (by simp [hs])
    rcases hn with h0 | ⟨h1, _⟩
    · left; simp [h0, h.2]
    · right; exact ⟨by simp [h1, h.2], h.1⟩
  | none =>
    have h0 : n = 0 := by
      rcases hn with h0 | ⟨_, h1⟩
      · exact h0
      · simp [hs] at h1
    rcases hB hs with ⟨h1, h2⟩ | ⟨h1, _⟩
    · right; exact ⟨by simp [h0, h1], h2⟩
    · left; simp [h0, h1]

theorem runTwo_count_le_one (env : Env) (role : Role) (slot : State → Option PC)
    (T : Task → Prop) (hg : Guards env role slot T) (sched : List (Bool × Settled)) :
    ∀ p : Pool, T p.first → T p.second →
      (constructed role p.events = 0 ∨
        (constructed role p.events = 1 ∧ (slot p.state).isSome = true)) →
      constructed role (runTwo env sched p).events ≤ 1 := by
  induction sched with
  | nil =>
    intro p _ _ h
    rcases h with h | ⟨h, _⟩ <;> simp [runTwo, h]
  | cons x rest ih =>
    intro p h1 h2 hJ
    obtain ⟨b, r⟩ := x
    cases b with
    | true =>
      simp only [runTwo, if_true]
      apply ih
      · exact h1
      · exact (hg p.second r p.state h2).1
      · simp only [constructed_append]
        exact guards_step_count env role slot T hg p.second r p.state _ h2 hJ
    | false =>
      simp only [runTwo, Bool.false_eq_true, if_false]
      apply ih
      · exact (hg p.first r p.state h1).1
      · exact h2
      · simp only [constructed_append]
        exact guards_step_count env role slot T hg p.first r p.state _ h1 hJ

theorem runTwo_count_one (env : Env) (role : Role) (slot : State → Option PC)
    (T : Task → Prop) (hg : Guards env role slot T) (sched : List (Bool × Settled)) :
    ∀ p : Pool, T p.first → T p.second →
      constructed role p.events = 1 → (slot p.state).isSome = true →
      constructed role (runTwo env sched p).events = 1 := by
  induction sched with
  | nil =>
    intro p _ _ h _
    simpa [runTwo] using h
  | cons x rest ih =>
    intro p h1 h2 hc hs
    obtain ⟨b, r⟩ := x
    cases b with
    | true =>
      obtain ⟨ht, hA, _⟩ := hg p.second r p.state h2
      simp only [runTwo, if_true]
      exact ih _ h1 ht (by simp [constructed_append, hc, (hA hs).2]) (hA hs).1
    | false =>
      obtain ⟨ht, hA, _⟩ := hg p.first r p.state h1
      simp only [runTwo, Bool.false_eq_true, if_false]
      exact ih _ ht h2 (by simp [constructed_append, hc, (hA hs).2]) (hA hs).1

/-- C1. Two `ready` messages delivered to the receiver channel of one script
whose sender slot is empty: whatever the order in which the segments of the
two handlers run and however the engine promises settle,
`createSenderPeerConnection` constructs at most one sender engine; it
constructs exactly one as soon as one of the handlers has run. -/
theorem ready_glare_one_sender (env : Env) (sched : List (Bool × Settled)) (s : State)
    (h : s.senderPC = none) :
    constructed Role.sender
      (runTwo env sched ⟨s, [], Task.queued Chan.receiverChannel Msg.ready,
        Task.queued Chan.receiverChannel Msg.ready⟩).events ≤ 1 ∧
    (sched ≠ [] →
      constructed Role.sender
        (runTwo env sched ⟨s, [], Task.queued Chan.receiverChannel Msg.ready,
          Task.queued Chan.receiverChannel Msg.ready⟩).events = 1) := by
  have hq : ReadyTask (Task.queued Chan.receiverChannel Msg.ready) := Or.inl rfl
  refine ⟨runTwo_count_le_one env Role.sender State.senderPC ReadyTask (guards_ready env) sched _
    hq hq (Or.inl rfl), ?_⟩
  intro hne
  cases sched with
  | nil => exact absurd rfl hne
  | cons x rest =>
    obtain ⟨b, r⟩ := x
    have he : Task.advance env (Task.queued Chan.receiverChannel Msg.ready) r s
        = makeCall env s := by
      simp [Task.advance, onmessage, receiverChannel_onmessage, h]
    have ht : ReadyTask (Task.ofStatus (makeCall env s).status) := by
      rcases makeCall_status env s with h | h <;> simp [h, Task.ofStatus, ReadyTask]
    cases b with
    | true =>
      simp only [runTwo, if_true, he]
      exact runTwo_count_one env Role.sender State.senderPC ReadyTask (guards_ready env) rest _
        hq ht (by simp [makeCall_constructed]) (by simp [makeCall_state])
    | false =>
      simp only [runTwo, Bool.false_eq_true, if_false, he]
      exact runTwo_count_one env Role.sender State.senderPC ReadyTask (guards_ready env) rest _
        ht hq (by simp [makeCall_constructed]) (by simp [makeCall_state])

theorem ready_glare_one_sender_witness :
    startedCommon.senderPC = none ∧
    constructed Role.sender
      (runTwo commonEnv
        [(false, Settled.rejected), (true, Settled.rejected),
          (false, Settled.fulfilled "o" []), (false, Settled.fulfilled "" [])]
        ⟨startedCommon, [], Task.queued Chan.receiverChannel Msg.ready,
          Task.queued Chan.receiverChannel Msg.ready⟩).events ≤ 1 :=
  ⟨rfl, (ready_glare_one_sender commonEnv _ startedCommon rfl).1⟩

/-! ### A handler run on its own -/

theorem run_frame (env : Env) (rs : List Settled) :
    ∀ st : Step,
      (run env rs st).state.senderPC = st.state.senderPC ∧
      (run env rs st).state.receiverPC = st.state.receiverPC ∧
      (run env rs st).state.nextPC = st.state.nextPC ∧
      closed (run env rs st).events = closed st.events ∧
      ∀ role, constructed role (run env rs st).events = constructed role st.events := by
  induction rs with
  | nil => intro st; simp [run]
  | cons r rs ih =>
    intro st
    cases hst : st.status with
    | done => simp [run, hst]
    | threw => simp [run, hst]
    | await k =>
      have h1 := resume_slots env k r st.state
      have h2 := resume_events env k r st.state
      simp only [run, hst]
      obtain ⟨a, b, c, d, e⟩ := ih ⟨(resume env k r st.state).state,
        st.events ++ (resume env k r st.state).events, (resume env k r st.state).status⟩
      refine ⟨by rw [a]; exact h1.1, by rw [b]; exact h1.2.1, by rw [c]; exact h1.2.2, ?_, ?_⟩
      · rw [d]; simp [closed_append, h2.1]
      · intro role; rw [e]; simp [constructed_append, h2.2 role]

/-! ### Two `offer` messages -/

/-- C2. Two `offer` messages handled one after the other, with no hangup in
between, by a script whose receiver slot is empty: the first handler (run on
for any number of its awaits, the promises settling in any way) constructs
exactly one receiver engine, which the slot then holds; the handler of the
second offer ends at once, does nothing to the outside (no engine constructed,
no engine call, no message published) and leaves the state, the slot holding
the first engine included, as it found it.  The count is the same when the
later segments of the first handler run after the second offer has been
handled: under every schedule of the two handlers exactly one receiver engine
is constructed. -/
theorem second_offer_ignored (env : Env) (s : State) (sdp1 sdp2 : String) (rs : List Settled)
    (h : s.receiverPC = none) :
    constructed Role.receiver
      (run env rs (onmessage env Chan.receiverChannel (Msg.offer sdp1) s)).events = 1 ∧
    (run env rs (onmessage env Chan.receiverChannel (Msg.offer sdp1) s)).state.receiverPC
      = some s.nextPC ∧
    (onmessage env Chan.receiverChannel (Msg.offer sdp2)
      (run env rs (onmessage env Chan.receiverChannel (Msg.offer sdp1) s)).state).events = [] ∧
    (onmessage env Chan.receiverChannel (Msg.offer sdp2)
      (run env rs (onmessage env Chan.receiverChannel (Msg.offer sdp1) s)).state).state
      = (run env rs (onmessage env Chan.receiverChannel (Msg.offer sdp1) s)).state ∧
    (onmessage env Chan.receiverChannel (Msg.offer sdp2)
      (run env rs (onmessage env Chan.receiverChannel (Msg.offer sdp1) s)).state).status
      = Status.done ∧
    (∀ sched : List (Bool × Settled), sched ≠ [] →
      constructed Role.receiver
        (runTwo env sched ⟨s, [], Task.queued Chan.receiverChannel (Msg.offer sdp1),
          Task.queued Chan.receiverChannel (Msg.offer sdp2)⟩).events = 1) := by
  have h1 : onmessage env Chan.receiverChannel (Msg.offer sdp1) s = handleOffer sdp1 s := rfl
  obtain ⟨_, hb, _, _, he⟩ := run_frame env rs (handleOffer sdp1 s)
  have hslot : (run env rs (handleOffer sdp1 s)).state.receiverPC = some s.nextPC := by
    rw [hb, handleOffer_empty sdp1 s h]
  have h2 : ∀ t : State, onmessage env Chan.receiverChannel (Msg.offer sdp2) t
      = handleOffer sdp2 t := fun _ => rfl
  rw [h1, h2, handleOffer_occupied sdp2 _ (by simp [hslot])]
  refine ⟨?_, hslot, rfl, rfl, rfl, ?_⟩
  · rw [he, handleOffer_empty sdp1 s h]
    simp [constructed, List.filter_cons, Event.isConstruct]
  · intro sched hne
    have hq : ∀ sdp, OfferTask (Task.queued Chan.receiverChannel (Msg.offer sdp)) :=
      fun sdp => Or.inl ⟨sdp, rfl⟩
    have hw : OfferTask (Task.suspended Cont.handleOffer_setRemoteDescription) :=
      Or.inr (Or.inl rfl)
    have hadv : ∀ sdp r, Task.advance env (Task.queued Chan.receiverChannel (Msg.offer sdp)) r s
        = handleOffer sdp s := fun _ _ => rfl
    cases sched with
    | nil => exact absurd rfl hne
    | cons x rest =>
      obtain ⟨b, r⟩ := x
      cases b with
      | true =>
        simp only [runTwo, if_true, hadv, handleOffer_empty _ s h, Task.ofStatus]
        exact runTwo_count_one env Role.receiver State.receiverPC OfferTask (guards_offer env)
          rest _ (hq sdp1) hw
          (by simp [constructed, List.filter_cons, Event.isConstruct]) (by simp)
      | false =>
        simp only [runTwo, Bool.false_eq_true, if_false, hadv, handleOffer_empty _ s h,
          Task.ofStatus]
        exact runTwo_count_one env Role.receiver State.receiverPC OfferTask (guards_offer env)
          rest _ hw (hq sdp2)
          (by simp [constructed, List.filter_cons, Event.isConstruct]) (by simp)

theorem second_offer_ignored_witness :
    State.init.receiverPC = none ∧
    constructed Role.receiver
      (run commonEnv [Settled.fulfilled "" [], Settled.fulfilled "a" [], Settled.rejected]
        (onmessage commonEnv Chan.receiverChannel (Msg.offer "o") State.init)).events = 1 :=
  ⟨rfl, (second_offer_ignored commonEnv State.init "o" "p"
    [Settled.fulfilled "" [], Settled.fulfilled "a" [], Settled.rejected] rfl).1⟩

/-! ### Invariants of the reachable states -/

theorem hangup_frame (env : Env) (s : State) :
    (hangup env s).state.nextPC = s.nextPC ∧
    ((hangup env s).state.hangupDisabled = true ∨
      ((hangup env s).state.hangupDisabled = s.hangupDisabled ∧
        (hangup env s).state.localStream = s.localStream ∧ s.localStream = none)) := by
  unfold hangup
  cases env.variant <;> cases s.localStream <;> simp

theorem segment_slotsDistinct (env : Env) (i : Input) (s : State) (h : SlotsDistinct s) :
    SlotsDistinct (segment env i s).state := by
  obtain ⟨h1, h2, h3⟩ := h
  have hang : SlotsDistinct (hangup env s).state := by
    have := hangup_slots env s
    simp [SlotsDistinct, this.1, this.2]
  have hmake : SlotsDistinct (makeCall env s).state := by
    rw [makeCall_state]
    refine ⟨?_, ?_, ?_⟩
    · intro pc hpc
      have e : s.nextPC = pc := by simpa using hpc
      subst e
      exact Nat.lt_succ_self _
    · intro pc hpc
      exact Nat.lt_succ_of_lt (h2 pc hpc)
    · intro pc hpc hr
      have e : s.nextPC = pc := by simpa using hpc
      subst e
      exact Nat.lt_irrefl _ (h2 _ hr)
  have hoffer : ∀ sdp, SlotsDistinct (handleOffer sdp s).state := by
    intro sdp
    cases hr : s.receiverPC with
    | some pc => rw [handleOffer_occupied sdp s (by simp [hr])]; exact ⟨h1, h2, h3⟩
    | none =>
      rw [handleOffer_empty sdp s hr]
      refine ⟨?_, ?_, ?_⟩
      · intro pc hpc
        exact Nat.lt_succ_of_lt (h1 pc hpc)
      · intro pc hpc
        have e : s.nextPC = pc := by simpa using hpc
        subst e
        exact Nat.lt_succ_self _
      · intro pc hpc hq
        have e : s.nextPC = pc := by simpa using hq
        subst e
        exact Nat.lt_irrefl _ (h1 _ hpc)
  have hres : ∀ k r, SlotsDistinct (resume env k r s).state := by
    intro k r
    obtain ⟨a, b, c⟩ := resume_slots env k r s
    simp only [SlotsDistinct, a, b, c]
    exact ⟨h1, h2, h3⟩
  cases i with
  | message ch m =>
    cases ch with
    | senderChannel =>
      cases m <;> simp only [segment, onmessage, senderChannel_onmessage, handleAnswer,
        handleCandidate] <;> repeat (first | exact ⟨h1, h2, h3⟩ | split)
    | receiverChannel =>
      cases m with
      | offer sdp => exact hoffer sdp
      | ready =>
        simp only [segment, onmessage, receiverChannel_onmessage]
        split
        · exact ⟨h1, h2, h3⟩
        · exact hmake
      | bye =>
        simp only [segment, onmessage, receiverChannel_onmessage]
        split
        · exact hang
        · exact ⟨h1, h2, h3⟩
      | candidate c =>
        simp only [segment, onmessage, receiverChannel_onmessage, handleCandidate]
        repeat (first | exact ⟨h1, h2, h3⟩ | split)
      | answer sdp => exact ⟨h1, h2, h3⟩
      | unknown t => exact ⟨h1, h2, h3⟩
  | startClick =>
    simp only [segment, startButton_onclick]
    repeat (first | exact ⟨h1, h2, h3⟩ | split)
  | hangupClick =>
    simp only [segment, hangupButton_onclick]
    split
    · exact ⟨h1, h2, h3⟩
    · rcases hangup_status env s with hs | hs <;> simp only [hs] <;> exact hang
  | icecandidate role e =>
    cases role <;> exact ⟨h1, h2, h3⟩
  | settled k r => exact hres k r

theorem segment_hangupGate (env : Env) (i : Input) (s : State) (h : HangupGate env s) :
    HangupGate env (segment env i s).state := by
  have hang : HangupGate env (hangup env s).state := by
    intro hv hd
    rcases (hangup_frame env s).2 with h1 | ⟨h1, h2, h3⟩
    · simp [h1] at hd
    · rw [h1] at hd
      have := h hv hd
      simp [h3] at this
  have hmake : HangupGate env (makeCall env s).state := by
    rw [makeCall_state]; exact h
  have hoffer : ∀ sdp, HangupGate env (handleOffer sdp s).state := by
    intro sdp
    cases hr : s.receiverPC with
    | some pc => rw [handleOffer_occupied sdp s (by simp [hr])]; exact h
    | none => rw [handleOffer_empty sdp s hr]; exact h
  cases i with
  | message ch m =>
    cases ch with
    | senderChannel =>
      cases m <;> simp only [segment, onmessage, senderChannel_onmessage, handleAnswer,
        handleCandidate] <;> repeat (first | exact h | split)
    | receiverChannel =>
      cases m with
      | offer sdp => exact hoffer sdp
      | ready =>
        simp only [segment, onmessage, receiverChannel_onmessage]
        split
        · exact h
        · exact hmake
      | bye =>
        simp only [segment, onmessage, receiverChannel_onmessage]
        split
        · exact hang
        · exact h
      | candidate c =>
        simp only [segment, onmessage, receiverChannel_onmessage, handleCandidate]
        repeat (first | exact h | split)
      | answer sdp => exact h
      | unknown t => exact h
  | startClick =>
    simp only [segment, startButton_onclick]
    repeat (first | exact h | split)
  | hangupClick =>
    simp only [segment, hangupButton_onclick]
    split
    · exact h
    · rcases hangup_status env s with hs | hs <;> simp only [hs] <;> exact hang
  | icecandidate role e =>
    cases role <;> exact h
  | settled k r =>
    intro hv
    cases k <;> cases r <;> simp only [segment, resume, hv] <;>
      repeat (first | exact h hv | simp | split)

theorem reachable_invariants (env : Env) (s : State) (h : Reachable env s) :
    SlotsDistinct s ∧ HangupGate env s := by
  induction h with
  | init => exact ⟨by simp [SlotsDistinct, State.init], by simp [HangupGate, State.init]⟩
  | turn i s _ ih => exact ⟨segment_slotsDistinct env i s ih.1, segment_hangupGate env i s ih.2⟩

/-! ### Engines are closed once -/

theorem segment_effect (env : Env) (i : Input) (s : State) : SlotEffect s (segment env i s) := by
  have same : SlotEffect s ⟨s, [], Status.done⟩ :=
    Or.inl ⟨rfl, Or.inl rfl, Or.inl rfl, Nat.le_refl _⟩
  have hang : SlotEffect s (hangup env s) :=
    Or.inr ⟨hangup_closed env s, (hangup_slots env s).1, (hangup_slots env s).2,
      (hangup_frame env s).1⟩
  have hmake : SlotEffect s (makeCall env s) := by
    obtain ⟨es, he, hc, _⟩ := makeCall_events env s
    left
    rw [he, makeCall_state]
    exact ⟨by simpa [closed] using hc, Or.inr rfl, Or.inl rfl, Nat.le_succ _⟩
  have hoffer : ∀ sdp, SlotEffect s (handleOffer sdp s) := by
    intro sdp
    cases hr : s.receiverPC with
    | some pc =>
      rw [handleOffer_occupied sdp s (by simp [hr])]
      exact same
    | none =>
      rw [handleOffer_empty sdp s hr]
      exact Or.inl ⟨rfl, Or.inl rfl, Or.inr rfl, Nat.le_succ _⟩
  have hres : ∀ k r, SlotEffect s (resume env k r s) := by
    intro k r
    obtain ⟨a, b, c⟩ := resume_slots env k r s
    exact Or.inl ⟨(resume_events env k r s).1, Or.inl a, Or.inl b, by rw [c]⟩
  have hcand : ∀ c pc, SlotEffect s (handleCandidate c pc s) := by
    intro c pc
    cases pc with
    | none => exact same
    | some p =>
      simp only [handleCandidate]
      split
      · split <;> exact Or.inl ⟨rfl, Or.inl rfl, Or.inl rfl, Nat.le_refl _⟩
      · exact Or.inl ⟨rfl, Or.inl rfl, Or.inl rfl, Nat.le_refl _⟩
  cases i with
  | message ch m =>
    cases ch with
    | senderChannel =>
      cases m with
      | answer sdp =>
        simp only [segment, onmessage, senderChannel_onmessage, handleAnswer]
        split
        · exact same
        · exact Or.inl ⟨rfl, Or.inl rfl, Or.inl rfl, Nat.le_refl _⟩
      | candidate c => exact hcand c _
      | ready => exact same
      | offer sdp => exact same
      | bye => exact same
      | unknown t => exact same
    | receiverChannel =>
      cases m with
      | offer sdp => exact hoffer sdp
      | ready =>
        simp only [segment, onmessage, receiverChannel_onmessage]
        split
        · exact same
        · exact hmake
      | bye =>
        simp only [segment, onmessage, receiverChannel_onmessage]
        split
        · exact hang
        · exact same
      | candidate c => exact hcand c _
      | answer sdp => exact same
      | unknown t => exact same
  | startClick =>
    simp only [segment, startButton_onclick]
    split
    · exact same
    · split <;> exact Or.inl ⟨rfl, Or.inl rfl, Or.inl rfl, Nat.le_refl _⟩
  | hangupClick =>
    simp only [segment, hangupButton_onclick]
    split
    · exact same
    · rcases hangup_status env s with hs | hs <;> simp only [hs] <;> exact hang
  | icecandidate role e =>
    cases role <;> exact Or.inl ⟨rfl, Or.inl rfl, Or.inl rfl, Nat.le_refl _⟩
  | settled k r => exact hres k r

theorem segment_unclosed (env : Env) (i : Input) (s : State) (log : List Event)
    (hd : SlotsDistinct s) (hu : Unclosed s log) :
    Unclosed (segment env i s).state (log ++ (segment env i s).events) := by
  intro pc hpc
  rw [closed_append] at hpc
  rcases segment_effect env i s with ⟨hc, hs, hr, hn⟩ | ⟨hc, hs, hr, hn⟩
  · rw [hc, List.append_nil] at hpc
    obtain ⟨h1, h2, h3⟩ := hu pc hpc
    refine ⟨Nat.lt_of_lt_of_le h1 hn, ?_, ?_⟩
    · rcases hs with hs | hs <;> rw [hs]
      · exact h2
      · intro e
        have e2 : s.nextPC = pc := by simpa using e
        subst e2
        exact Nat.lt_irrefl _ h1
    · rcases hr with hr | hr <;> rw [hr]
      · exact h3
      · intro e
        have e2 : s.nextPC = pc := by simpa using e
        subst e2
        exact Nat.lt_irrefl _ h1
  · rw [hs, hr, hn]
    refine ⟨?_, by simp, by simp⟩
    rcases List.mem_append.mp hpc with h | h
    · exact (hu pc h).1
    · rw [hc] at h
      rcases List.mem_append.mp h with h | h
      · exact hd.1 pc (by simpa [Option.mem_toList] using h)
      · exact hd.2.1 pc (by simpa [Option.mem_toList] using h)

theorem history_reachable (env : Env) (s : State) (log : List Event) (h : History env s log) :
    Reachable env s := by
  induction h with
  | init => exact Reachable.init
  | turn i s _ _ ih => exact Reachable.turn i s ih

theorem history_play (env : Env) (inputs : List Input) :
    ∀ p : State × List Event, History env p.1 p.2 →
      History env (play env inputs p).1 (play env inputs p).2 := by
  induction inputs with
  | nil => intro p h; exact h
  | cons i rest ih =>
    intro p h
    exact ih _ (History.turn i p.1 p.2 h)

theorem history_afterSampleCall : History commonEnv afterSampleCall.1 afterSampleCall.2 :=
  history_play commonEnv sampleCall (State.init, []) History.init

theorem history_unclosed (env : Env) (s : State) (log : List Event) (h : History env s log) :
    Unclosed s log := by
  induction h with
  | init => intro pc hpc; simp [closed] at hpc
  | turn i s log hh ih =>
    exact segment_unclosed env i s log
      (reachable_invariants env s (history_reachable env s log hh)).1 ih

/-! ### Hangup button -/

/-- C3. Whatever the two slots hold, after `hangupButton.onclick` has run both
slots are empty, and `close()` has been invoked once for each occupied slot,
on the engine that slot held, and on nothing else; as the two slots never hold
the same engine, each engine that was held has been closed exactly once.  That
is so over the whole life of the script as well: in a reachable state no engine
held in a slot has been closed before, so after `hangupButton.onclick` each of
them has had `close()` invoked exactly once in all. -/
theorem endCall_clean_teardown (env : Env) (s : State) :
    (endCall env s).state.senderPC = none ∧
    (endCall env s).state.receiverPC = none ∧
    closed (endCall env s).events = s.senderPC.toList ++ s.receiverPC.toList ∧
    ((∀ pc, s.senderPC = some pc → s.receiverPC ≠ some pc) →
      ∀ pc, (s.senderPC = some pc ∨ s.receiverPC = some pc) →
        (closed (endCall env s).events).count pc = 1) ∧
    (∀ log, History env s log →
      ∀ pc, (s.senderPC = some pc ∨ s.receiverPC = some pc) →
        (closed (log ++ (endCall env s).events)).count pc = 1) := by
  have once : (∀ pc, s.senderPC = some pc → s.receiverPC ≠ some pc) →
      ∀ pc, (s.senderPC = some pc ∨ s.receiverPC = some pc) →
        (closed (endCall env s).events).count pc = 1 := by
    intro hd pc hpc
    rw [endCall_closed]
    cases hs : s.senderPC with
    | none =>
      cases hr : s.receiverPC with
      | none => simp [hs, hr] at hpc
      | some q =>
        have : q = pc := by simpa [hs, hr] using hpc
        simp [this]
    | some p =>
      cases hr : s.receiverPC with
      | none =>
        have : p = pc := by simpa [hs, hr] using hpc
        simp [this]
      | some q =>
        have hne : p ≠ q := by
          intro e
          exact hd p hs (by rw [hr, e])
        rcases hpc with h | h
        · have : p = pc := by simpa [hs] using h
          subst this
          simp [List.count_cons, Ne.symm hne]
        · have : q = pc := by simpa [hr] using h
          subst this
          simp [List.count_cons, hne]
  refine ⟨(endCall_state_slots env s).1, (endCall_state_slots env s).2, endCall_closed env s,
    once, ?_⟩
  intro log hlog pc hpc
  have hd := (reachable_invariants env s (history_reachable env s log hlog)).1
  have hu := history_unclosed env s log hlog
  have h0 : (closed log).count pc = 0 := by
    rw [List.count_eq_zero]
    intro hmem
    obtain ⟨_, h2, h3⟩ := hu pc hmem
    rcases hpc with h | h
    · exact h2 h
    · exact h3 h
  rw [closed_append, List.count_append, h0, once hd.2.2 pc hpc]

theorem endCall_clean_teardown_witness :
    History commonEnv afterSampleCall.1 afterSampleCall.2 ∧
    afterSampleCall.1.senderPC = some 0 ∧
    (closed (afterSampleCall.2 ++ (endCall commonEnv afterSampleCall.1).events)).count 0 = 1 :=
  ⟨history_afterSampleCall, by decide,
    (endCall_clean_teardown commonEnv afterSampleCall.1).2.2.2.2 afterSampleCall.2
      history_afterSampleCall 0 (Or.inl (by decide))⟩

/-! ### Hangup with no session -/

theorem hangup_events_empty_slots (env : Env) (s : State) (hs : s.senderPC = none)
    (hr : s.receiverPC = none) :
    ∀ e ∈ (hangup env s).events, e.isEngine = false ∧ e.isPost = false := by
  unfold hangup
  cases env.variant <;> cases s.localStream <;> simp [hs, hr, Event.isEngine, Event.isPost]

theorem endCall_events_empty_slots (env : Env) (s : State) (hs : s.senderPC = none)
    (hr : s.receiverPC = none) :
    ∀ e ∈ (endCall env s).events, e.isEngine = false := by
  have h := hangup_events_empty_slots env s hs hr
  rw [endCall_eq]
  rcases hangup_status env s with hst | hst <;> simp only [hst]
  · intro e he
    rcases List.mem_append.mp he with h1 | h1
    · exact (h e h1).1
    · simp at h1
      subst h1
      rfl
  · exact fun e he => (h e he).1

theorem hangup_done_disables (env : Env) (s : State) (h : (hangup env s).status = Status.done) :
    (hangup env s).state.hangupDisabled = true := by
  revert h
  unfold hangup
  cases env.variant <;> cases s.localStream <;> simp

theorem endCall_done_disables (env : Env) (s : State) (h : (endCall env s).status = Status.done) :
    (endCall env s).state.hangupDisabled = true := by
  revert h
  rw [endCall_eq]
  rcases hangup_status env s with hst | hst <;> simp only [hst]
  · intro _
    exact hangup_done_disables env s hst
  · intro h
    cases h

theorem hangupClick_disabled (env : Env) (s : State) (h : s.hangupDisabled = true) :
    hangupClick env s = ⟨s, [], Status.done⟩ := by
  simp [hangupClick, segment, h, run]

theorem hangupClick_enabled (env : Env) (s : State) (h : s.hangupDisabled = false) :
    hangupClick env s = endCall env s := by
  simp [hangupClick, segment, h, endCall]

theorem reachable_hangupClick (env : Env) (s : State) (h : Reachable env s) :
    Reachable env (hangupClick env s).state := by
  have h1 := Reachable.turn Input.hangupClick s h
  unfold hangupClick
  cases hst : (segment env Input.hangupClick s).status with
  | done => simpa [run, hst] using h1
  | threw => simpa [run, hst] using h1
  | await k =>
    simp only [run, hst]
    exact Reachable.turn (Input.settled k (Settled.fulfilled "" [])) _ h1

/-- C4. `endCall` is the click handler of the hangup button, and the script
enters it through a click only; a click on the disabled button starts no
handler.  In every reachable state with both slots empty, a click on the hangup
button, followed to the end of what it starts, does not throw, makes no engine
call (closes no engine) and leaves both slots empty.  That includes the state
right after a previous `endCall`, when the local stream has been released:
the state after the click is reachable with both slots empty again, and there
the button is disabled, so that a further click does nothing at all.  While
the button is enabled the click is the handler itself, and in `main.js` the
handler does not throw in any state, however often it is run. -/
theorem hangupClick_without_sessions (env : Env) (s : State) (hreach : Reachable env s)
    (hs : s.senderPC = none) (hr : s.receiverPC = none) :
    (hangupClick env s).status = Status.done ∧
    (∀ e ∈ (hangupClick env s).events, e.isEngine = false) ∧
    closed (hangupClick env s).events = [] ∧
    (hangupClick env s).state.senderPC = none ∧
    (hangupClick env s).state.receiverPC = none ∧
    Reachable env (hangupClick env s).state ∧
    hangupClick env (hangupClick env s).state
      = ⟨(hangupClick env s).state, [], Status.done⟩ ∧
    (s.hangupDisabled = false → hangupClick env s = endCall env s) ∧
    (env.variant = Variant.main →
      (endCall env s).status = Status.done ∧
      (endCall env (endCall env s).state).status = Status.done) := by
  have hmain : env.variant = Variant.main →
      (endCall env s).status = Status.done ∧
      (endCall env (endCall env s).state).status = Status.done := by
    intro hv
    exact ⟨(endCall_done_iff env s).mpr (Or.inl hv), (endCall_done_iff env _).mpr (Or.inl hv)⟩
  refine ⟨?_, ?_, ?_, ?_, ?_, reachable_hangupClick env s hreach, ?_,
    hangupClick_enabled env s, hmain⟩
  all_goals
    cases hd : s.hangupDisabled with
    | true =>
      rw [hangupClick_disabled env s hd] <;>
      first
        | rfl
        | exact hs
        | exact hr
        | (intro e he; simp at he)
        | exact hangupClick_disabled env s hd
    | false =>
      have hdone : (endCall env s).status = Status.done := by
        rw [endCall_done_iff]
        cases hv : env.variant with
        | main => exact Or.inl rfl
        | common => exact Or.inr ((reachable_invariants env s hreach).2 hv hd)
      rw [hangupClick_enabled env s hd]
      first
        | exact hdone
        | exact endCall_events_empty_slots env s hs hr
        | (rw [endCall_closed, hs, hr]; rfl)
        | exact (endCall_state_slots env s).1
        | exact (endCall_state_slots env s).2
        | exact hangupClick_disabled env _ (endCall_done_disables env s hdone)

theorem hangupClick_without_sessions_witness :
    Reachable commonEnv afterSampleHangup.1 ∧
    afterSampleHangup.1.senderPC = none ∧ afterSampleHangup.1.receiverPC = none ∧
    afterSampleHangup.1.localStream = none ∧
    (hangupClick commonEnv afterSampleHangup.1).status = Status.done :=
  ⟨history_reachable _ _ _ (history_play commonEnv _ (State.init, []) History.init),
    by decide, by decide, by decide,
    (hangupClick_without_sessions commonEnv afterSampleHangup.1
      (history_reachable _ _ _ (history_play commonEnv _ (State.init, []) History.init))
      (by decide) (by decide)).1⟩

/-! ### Candidate messages -/

/-- C5. A `candidate` message whose role has an empty slot is dropped: the
handler ends at once, does nothing to the outside (no engine call, nothing
published) and leaves the whole state, both slots included, as it was. -/
theorem candidate_dropped_when_slot_empty (env : Env) (ch : Chan) (c : CandidateData)
    (s : State) (h : slotOf ch s = none) :
    (onmessage env ch (Msg.candidate c) s).events = [] ∧
    (onmessage env ch (Msg.candidate c) s).state = s ∧
    (onmessage env ch (Msg.candidate c) s).status = Status.done := by
  cases ch <;>
    simp_all [slotOf, onmessage, senderChannel_onmessage, receiverChannel_onmessage,
      handleCandidate]

theorem candidate_dropped_when_slot_empty_witness :
    slotOf Chan.senderChannel State.init = none ∧
    (onmessage mainEnv Chan.senderChannel (Msg.candidate emptyCandidate) State.init).events
      = [] :=
  ⟨rfl, (candidate_dropped_when_slot_empty mainEnv Chan.senderChannel emptyCandidate
    State.init rfl).1⟩

theorem onmessage_candidate (env : Env) (ch : Chan) (c : CandidateData) (s : State) :
    onmessage env ch (Msg.candidate c) s = handleCandidate c (slotOf ch s) s := by
  cases ch <;> rfl

theorem handleCandidate_state (c : CandidateData) (pc : Option PC) (s : State) :
    (handleCandidate c pc s).state = s := by
  cases pc with
  | none => rfl
  | some p =>
    simp only [handleCandidate]
    split
    · split <;> rfl
    · rfl

theorem handleCandidate_run (env : Env) (c : CandidateData) (pc : Option PC) (s : State)
    (rs : List Settled) :
    (run env rs (handleCandidate c pc s)).events = (handleCandidate c pc s).events := by
  cases rs with
  | nil => rfl
  | cons r rs =>
    cases pc with
    | none => rfl
    | some p =>
      simp only [handleCandidate]
      split
      · split
        · rfl
        · cases r <;> cases rs <;> simp [run, resume]
      · cases r <;> cases rs <;> simp [run, resume]

/-- C10, as the code has it. A `candidate` message routed to a role whose
slot holds an engine is answered with `addIceCandidate(null)`, and with nothing
else, exactly when its candidate field is falsy (absent, `null` or the empty
string).  When the candidate field is a string that is not empty and the
message carries `sdpMid` or `sdpMLineIndex`, the handler makes exactly one
engine call, `addIceCandidate` of the candidate rebuilt from `candidate`,
`sdpMid` and `sdpMLineIndex` (the latter as an unsigned short); when the message
carries neither, `new RTCIceCandidate` throws and no engine call is made.  The
handler makes no further call however the awaited call settles, and the state
is left as it was. -/
theorem candidate_dispatch (env : Env) (ch : Chan) (c : CandidateData) (s : State) (pc : PC)
    (h : slotOf ch s = some pc) :
    ((onmessage env ch (Msg.candidate c) s).events
        = [Event.engine pc (EngineOp.addIceCandidate none)] ↔
      (c.candidate = none ∨ c.candidate = some "")) ∧
    ((c.candidate = none ∨ c.candidate = some "") →
      (onmessage env ch (Msg.candidate c) s).status
        = Status.await Cont.handleCandidate_addIceCandidate) ∧
    (∀ str, c.candidate = some str → str ≠ "" → (c.sdpMid ≠ none ∨ c.sdpMLineIndex ≠ none) →
      (onmessage env ch (Msg.candidate c) s).events
        = [Event.engine pc (EngineOp.addIceCandidate
            (some ⟨str, c.sdpMid, c.sdpMLineIndex.map (fun n => n % 65536)⟩))] ∧
      (onmessage env ch (Msg.candidate c) s).status
        = Status.await Cont.handleCandidate_addIceCandidate) ∧
    (∀ str, c.candidate = some str → str ≠ "" → c.sdpMid = none → c.sdpMLineIndex = none →
      (onmessage env ch (Msg.candidate c) s).events = [] ∧
      (onmessage env ch (Msg.candidate c) s).status = Status.threw) ∧
    (onmessage env ch (Msg.candidate c) s).state = s ∧
    (∀ rs, (run env rs (onmessage env ch (Msg.candidate c) s)).events
      = (onmessage env ch (Msg.candidate c) s).events) := by
  rw [onmessage_candidate, h]
  refine ⟨?_, ?_, ?_, ?_, handleCandidate_state c _ s, handleCandidate_run env c _ s⟩
  · constructor
    · intro he
      cases hc : c.candidate with
      | none => exact Or.inl rfl
      | some str =>
        by_cases hstr : str = ""
        · exact Or.inr (by rw [hstr])
        · exfalso
          simp only [handleCandidate, hc, truthy, bne_iff_ne, ne_eq, hstr, not_false_eq_true,
            if_true] at he
          revert he
          split <;> simp
    · rintro (hc | hc) <;> simp [handleCandidate, hc, truthy]
  · rintro (hc | hc) <;> simp [handleCandidate, hc, truthy]
  · intro str hc hne hmid
    cases hm : c.sdpMid <;> cases hi : c.sdpMLineIndex <;>
      simp_all [handleCandidate, truthy, RTCIceCandidate]
  · intro str hc hne hm hi
    simp [handleCandidate, hc, truthy, hne, RTCIceCandidate, hm, hi]

theorem candidate_dispatch_witness :
    slotOf Chan.receiverChannel inCallCommon = some 1 ∧
    (onmessage commonEnv Chan.receiverChannel (Msg.candidate hostCandidate) inCallCommon).state
      = inCallCommon :=
  ⟨rfl, (candidate_dispatch commonEnv Chan.receiverChannel hostCandidate inCallCommon 1
    rfl).2.2.2.2.1⟩

/-- C10 as stated fails twice over. A `candidate` message whose candidate
field is present and is the empty string is answered with
`addIceCandidate(null)`, not with the rebuilt candidate; and a message with a
candidate string but neither `sdpMid` nor `sdpMLineIndex` makes
`new RTCIceCandidate` throw, so that no engine call is made at all. -/
theorem empty_candidate_string_added_as_null :
    emptyCandidate.candidate ≠ none ∧
    slotOf Chan.receiverChannel inCallCommon = some 1 ∧
    (onmessage commonEnv Chan.receiverChannel (Msg.candidate emptyCandidate) inCallCommon).events
      = [Event.engine 1 (EngineOp.addIceCandidate none)] ∧
    (onmessage mainEnv Chan.senderChannel (Msg.candidate emptyCandidate) inCallCommon).events
      = [Event.engine 0 (EngineOp.addIceCandidate none)] ∧
    (onmessage commonEnv Chan.receiverChannel (Msg.candidate bareCandidate) inCallCommon).events
      = [] ∧
    (onmessage commonEnv Chan.receiverChannel (Msg.candidate bareCandidate) inCallCommon).status
      = Status.threw := by
  decide

/-! ### One `ready` broadcast, two scripts -/

theorem isOfferer_ready (env : Env) (s : State) :
    isOfferer (onmessage env Chan.receiverChannel Msg.ready s) = true ↔ s.senderPC = none := by
  cases hs : s.senderPC with
  | some pc => simp [onmessage, receiverChannel_onmessage, hs, isOfferer]
  | none =>
    obtain ⟨es, he, _, _⟩ := makeCall_events env s
    simp [onmessage, receiverChannel_onmessage, hs, isOfferer, he, Event.isConstruct]

/-- C6, as the code has it. A script that observes `ready` on its receiver
channel looks at its own sender slot only: it goes into `makeCall` and
constructs a sender engine exactly when that slot is empty.  So of two
scripts that both have an empty sender slot and observe the same `ready`,
both become the offerer; one of them holds back only if its own sender slot is
occupied. -/
theorem ready_broadcast_offerers (envA envB : Env) (a b : State) :
    (isOfferer (broadcastReady envA envB a b).1 = true ↔ a.senderPC = none) ∧
    (isOfferer (broadcastReady envA envB a b).2 = true ↔ b.senderPC = none) ∧
    (a.senderPC = none → b.senderPC = none →
      offerers (broadcastReady envA envB a b) = 2 ∧
      (broadcastReady envA envB a b).1.state.senderPC = some a.nextPC ∧
      (broadcastReady envA envB a b).2.state.senderPC = some b.nextPC) := by
  refine ⟨isOfferer_ready envA a, isOfferer_ready envB b, ?_⟩
  intro ha hb
  have h1 := (isOfferer_ready envA a).mpr ha
  have h2 := (isOfferer_ready envB b).mpr hb
  refine ⟨?_, ?_, ?_⟩
  · simp only [offerers, broadcastReady] at *
    simp [h1, h2]
  · simp [broadcastReady, onmessage, receiverChannel_onmessage, ha, makeCall_state]
  · simp [broadcastReady, onmessage, receiverChannel_onmessage, hb, makeCall_state]

theorem ready_broadcast_offerers_witness :
    startedMain.senderPC = none ∧ State.init.senderPC = none ∧
    offerers (broadcastReady mainEnv mainEnv startedMain State.init) = 2 :=
  ⟨rfl, rfl, ((ready_broadcast_offerers mainEnv mainEnv startedMain State.init).2.2 rfl rfl).1⟩

/-- C6 as stated fails: the tab that started the call and a tab that has just
loaded both have an empty sender slot, both observe the `ready` broadcast, and
both construct a sender engine. -/
theorem ready_broadcast_two_offerers :
    startedCommon.senderPC = none ∧ State.init.senderPC = none ∧
    isOfferer (broadcastReady commonEnv commonEnv startedCommon State.init).1 = true ∧
    isOfferer (broadcastReady commonEnv commonEnv startedCommon State.init).2 = true ∧
    ¬ offerers (broadcastReady commonEnv commonEnv startedCommon State.init) ≤ 1 := by
  decide

/-! ### Engine failures and hangup during a negotiation -/

theorem resume_negotiating (env : Env) (k : Cont) (r : Settled) (s : State)
    (hk : k.negotiating = true) :
    (resume env k r s).state = s ∧
    ((resume env k r s).status = Status.done ∨
      ((∀ e ∈ (resume env k r s).events, e.isPost = false) ∧
        ∀ j, (resume env k r s).status = Status.await j → j.negotiating = true)) := by
  cases k <;> simp [Cont.negotiating] at hk <;> cases r <;> simp only [resume] <;>
    repeat (first | simp [Event.isPost, Cont.negotiating] | split)

theorem run_negotiating (env : Env) (rs : List Settled) :
    ∀ st : Step,
      (st.status = Status.done ∨
        ((∀ e ∈ st.events, e.isPost = false) ∧
          ∀ j, st.status = Status.await j → j.negotiating = true)) →
      (run env rs st).status = Status.threw →
      ∀ e ∈ (run env rs st).events, e.isPost = false := by
  induction rs with
  | nil =>
    intro st h ht
    rcases h with h | h
    · simp [run, h] at ht
    · simpa [run] using h.1
  | cons r rs ih =>
    intro st h
    cases hst : st.status with
    | done => simp [run, hst]
    | threw =>
      rcases h with h | h
      · simp [hst] at h
      · intro _; simpa [run, hst] using h.1
    | await k =>
      rcases h with h | ⟨h1, h2⟩
      · simp [hst] at h
      · have hk := h2 k hst
        obtain ⟨_, hr⟩ := resume_negotiating env k r st.state hk
        simp only [run, hst]
        apply ih
        rcases hr with hr | ⟨hr1, hr2⟩
        · exact Or.inl hr
        · refine Or.inr ⟨?_, hr2⟩
          intro e he
          rcases List.mem_append.mp he with he | he
          · exact h1 e he
          · exact hr1 e he

theorem run_stop (env : Env) (rs : List Settled) (st : Step)
    (h : ∀ k, st.status ≠ Status.await k) : run env rs st = st := by
  cases rs with
  | nil => rfl
  | cons r rs =>
    cases hst : st.status with
    | done => simp [run, hst]
    | threw => simp [run, hst]
    | await k => exact absurd hst (h k)

theorem run_status_congr (env : Env) (rs : List Settled) :
    ∀ st st2 : Step, st.state = st2.state → st.status = st2.status →
      (run env rs st).status = (run env rs st2).status := by
  induction rs with
  | nil => intro st st2 _ h; simpa [run] using h
  | cons r rs ih =>
    intro st st2 h1 h2
    cases hst : st.status with
    | done => simp [run, hst, ← h2]
    | threw => simp [run, hst, ← h2]
    | await k =>
      have hst2 : st2.status = Status.await k := by rw [← h2, hst]
      simp only [run, hst, hst2]
      apply ih
      · simp [h1]
      · simp [h1]

theorem addTracks_completes (env : Env) (pc : PC) (ts : List Track) :
    (addTracks env pc ts).2 = !ts.any (env.addTrackThrows pc) := by
  induction ts with
  | nil => rfl
  | cons t ts ih =>
    unfold addTracks
    cases ht : env.addTrackThrows pc t <;> simp [ht, ih]

/-- Attaching the tracks fails exactly when `createSenderPeerConnection`
throws. -/
theorem attachFails_iff (env : Env) (s : State) :
    attachFails env s s.nextPC = true ↔
      (createSenderPeerConnection env s).status = Status.threw := by
  unfold attachFails createSenderPeerConnection
  cases env.variant <;> simp only []
  · cases s.combinedStream with
    | none => simp
    | some cs =>
      cases s.videoStream with
      | none =>
        simp only [addTracks_completes]
        cases List.any cs (env.addTrackThrows s.nextPC) <;> simp
      | some vs =>
        simp only [addTracks_completes]
        cases List.any cs (env.addTrackThrows s.nextPC) <;>
          cases List.any vs (env.addTrackThrows s.nextPC) <;> simp
  · cases s.localStream with
    | none => simp
    | some ls =>
      simp only [addTracks_completes]
      cases List.any ls (env.addTrackThrows s.nextPC) <;> simp

theorem offer_rejected_threw (env : Env) (s : State) (sdp : String) (pre rest : List Settled)
    (hr : s.receiverPC = none) (hp : allFulfilled pre = true) (hl : pre.length < 3) :
    (run env (pre ++ Settled.rejected :: rest) (handleOffer sdp s)).status = Status.threw := by
  rw [handleOffer_empty sdp s hr]
  rcases pre with _ | ⟨a, _ | ⟨b, _ | ⟨c, t⟩⟩⟩
  · rw [List.nil_append, run]
    simp only [resume]
    apply congrArg Step.status (run_stop env rest _ _) |>.trans
    · rfl
    · intro k; simp
  · cases a with
    | rejected => simp [allFulfilled] at hp
    | fulfilled x y =>
      simp only [List.cons_append, List.nil_append, run, resume]
      apply congrArg Step.status (run_stop env rest _ _) |>.trans
      · rfl
      · intro k; simp
  · cases a with
    | rejected => simp [allFulfilled] at hp
    | fulfilled x y =>
      cases b with
      | rejected => simp [allFulfilled] at hp
      | fulfilled x2 y2 =>
        simp only [List.cons_append, List.nil_append, run, resume]
        apply congrArg Step.status (run_stop env rest _ _) |>.trans
        · rfl
        · intro k; simp
  · simp at hl
    omega

theorem ready_rejected_threw (env : Env) (s : State) (pre rest : List Settled)
    (hp : allFulfilled pre = true) (hl : pre.length < 2) :
    (run env (pre ++ Settled.rejected :: rest) (makeCall env s)).status = Status.threw := by
  rcases makeCall_status env s with hst | hst
  · rw [run_status_congr env _ (makeCall env s)
      ⟨{ s with senderPC := some s.nextPC, nextPC := s.nextPC + 1 }, [],
        Status.await Cont.makeCall_createOffer⟩ (makeCall_state env s) hst]
    rcases pre with _ | ⟨a, _ | ⟨b, t⟩⟩
    · rw [List.nil_append, run]
      simp only [resume]
      apply congrArg Step.status (run_stop env rest _ _) |>.trans
      · rfl
      · intro k; simp
    · cases a with
      | rejected => simp [allFulfilled] at hp
      | fulfilled x y =>
        simp only [List.cons_append, List.nil_append, run, resume]
        apply congrArg Step.status (run_stop env rest _ _) |>.trans
        · rfl
        · intro k; simp
    · simp at hl
      omega
  · rw [run_stop env _ _ (by intro k; simp [hst])]
    exact hst

/-- A handler of an `offer`, or of a `ready`, that started with its slot
empty and ended with an exception has undone nothing. -/
theorem threw_keeps_session (env : Env) (s : State) (sdp sdp2 : String)
    (rs : List Settled) :
    (s.receiverPC = none →
      (run env rs (onmessage env Chan.receiverChannel (Msg.offer sdp) s)).status = Status.threw →
      (run env rs (onmessage env Chan.receiverChannel (Msg.offer sdp) s)).state.receiverPC
        = some s.nextPC ∧
      (run env rs (onmessage env Chan.receiverChannel (Msg.offer sdp) s)).state.senderPC
        = s.senderPC ∧
      closed (run env rs (onmessage env Chan.receiverChannel (Msg.offer sdp) s)).events = [] ∧
      (∀ e ∈ (run env rs (onmessage env Chan.receiverChannel (Msg.offer sdp) s)).events,
        e.isPost = false) ∧
      onmessage env Chan.receiverChannel (Msg.offer sdp2)
          (run env rs (onmessage env Chan.receiverChannel (Msg.offer sdp) s)).state
        = ⟨(run env rs (onmessage env Chan.receiverChannel (Msg.offer sdp) s)).state, [],
            Status.done⟩) ∧
    (s.senderPC = none →
      (run env rs (onmessage env Chan.receiverChannel Msg.ready s)).status = Status.threw →
      (run env rs (onmessage env Chan.receiverChannel Msg.ready s)).state.senderPC
        = some s.nextPC ∧
      (run env rs (onmessage env Chan.receiverChannel Msg.ready s)).state.receiverPC
        = s.receiverPC ∧
      closed (run env rs (onmessage env Chan.receiverChannel Msg.ready s)).events = [] ∧
      (∀ e ∈ (run env rs (onmessage env Chan.receiverChannel Msg.ready s)).events,
        e.isPost = false) ∧
      onmessage env Chan.receiverChannel Msg.ready
          (run env rs (onmessage env Chan.receiverChannel Msg.ready s)).state
        = ⟨(run env rs (onmessage env Chan.receiverChannel Msg.ready s)).state, [],
            Status.done⟩) := by
  constructor
  · intro hr ht
    have h1 : onmessage env Chan.receiverChannel (Msg.offer sdp) s = handleOffer sdp s := rfl
    have h2 : ∀ t : State, onmessage env Chan.receiverChannel (Msg.offer sdp2) t
        = handleOffer sdp2 t := fun _ => rfl
    rw [h1] at ht ⊢
    obtain ⟨ha, hb, _, hd, _⟩ := run_frame env rs (handleOffer sdp s)
    have hslot : (run env rs (handleOffer sdp s)).state.receiverPC = some s.nextPC := by
      rw [hb, handleOffer_empty sdp s hr]
    refine ⟨hslot, ?_, ?_, ?_, ?_⟩
    · rw [ha, handleOffer_empty sdp s hr]
    · rw [hd, handleOffer_empty sdp s hr]; rfl
    · apply run_negotiating env rs _ _ ht
      right
      rw [handleOffer_empty sdp s hr]
      simp [Event.isPost, Cont.negotiating]
    · rw [h2, handleOffer_occupied sdp2 _ (by simp [hslot])]
  · intro hs ht
    have h1 : onmessage env Chan.receiverChannel Msg.ready s = makeCall env s := by
      simp [onmessage, receiverChannel_onmessage, hs]
    rw [h1] at ht ⊢
    obtain ⟨ha, hb, _, hd, _⟩ := run_frame env rs (makeCall env s)
    obtain ⟨es, he, hc, hp⟩ := makeCall_events env s
    have hslot : (run env rs (makeCall env s)).state.senderPC = some s.nextPC := by
      rw [ha, makeCall_state]
    refine ⟨hslot, ?_, ?_, ?_, ?_⟩
    · rw [hb, makeCall_state]
    · rw [hd, he]; simpa [closed] using hc
    · apply run_negotiating env rs _ _ ht
      right
      constructor
      · intro e hmem
        rw [he] at hmem
        rcases List.mem_cons.mp hmem with h | h
        · subst h; rfl
        · exact (hp e h).1
      · intro j hj
        rcases makeCall_status env s with h | h
        · rw [h] at hj
          cases hj
          rfl
        · rw [h] at hj
          cases hj
    · simp [onmessage, receiverChannel_onmessage, hslot]

/-- C7, as the code has it. When an engine operation fails while a session
is being created, the handler ends with that exception and nothing is undone:
no engine is closed, the slot keeps the engine the handler constructed, the
other slot is as before, and nothing has been published; a later `offer`
(respectively `ready`) finds the slot occupied and is ignored.  The failing
operation is the await number `pre.length` of the handler, the ones before it
having succeeded: `setRemoteDescription`, `createAnswer` or
`setLocalDescription` in `handleOffer`, `createOffer` or `setLocalDescription`
in `makeCall`; or it is the attaching of the tracks in
`createSenderPeerConnection`. -/
theorem engine_failure_keeps_session (env : Env) (s : State) (sdp sdp2 : String)
    (pre rest : List Settled) (hp : allFulfilled pre = true) :
    (s.receiverPC = none → pre.length < 3 →
      (run env (pre ++ Settled.rejected :: rest)
        (onmessage env Chan.receiverChannel (Msg.offer sdp) s)).status = Status.threw ∧
      (run env (pre ++ Settled.rejected :: rest)
        (onmessage env Chan.receiverChannel (Msg.offer sdp) s)).state.receiverPC
        = some s.nextPC ∧
      (run env (pre ++ Settled.rejected :: rest)
        (onmessage env Chan.receiverChannel (Msg.offer sdp) s)).state.senderPC = s.senderPC ∧
      closed (run env (pre ++ Settled.rejected :: rest)
        (onmessage env Chan.receiverChannel (Msg.offer sdp) s)).events = [] ∧
      (∀ e ∈ (run env (pre ++ Settled.rejected :: rest)
          (onmessage env Chan.receiverChannel (Msg.offer sdp) s)).events, e.isPost = false) ∧
      onmessage env Chan.receiverChannel (Msg.offer sdp2)
          (run env (pre ++ Settled.rejected :: rest)
            (onmessage env Chan.receiverChannel (Msg.offer sdp) s)).state
        = ⟨(run env (pre ++ Settled.rejected :: rest)
            (onmessage env Chan.receiverChannel (Msg.offer sdp) s)).state, [], Status.done⟩) ∧
    (s.senderPC = none → pre.length < 2 →
      (run env (pre ++ Settled.rejected :: rest)
        (onmessage env Chan.receiverChannel Msg.ready s)).status = Status.threw ∧
      (run env (pre ++ Settled.rejected :: rest)
        (onmessage env Chan.receiverChannel Msg.ready s)).state.senderPC = some s.nextPC ∧
      (run env (pre ++ Settled.rejected :: rest)
        (onmessage env Chan.receiverChannel Msg.ready s)).state.receiverPC = s.receiverPC ∧
      closed (run env (pre ++ Settled.rejected :: rest)
        (onmessage env Chan.receiverChannel Msg.ready s)).events = [] ∧
      (∀ e ∈ (run env (pre ++ Settled.rejected :: rest)
          (onmessage env Chan.receiverChannel Msg.ready s)).events, e.isPost = false) ∧
      onmessage env Chan.receiverChannel Msg.ready
          (run env (pre ++ Settled.rejected :: rest)
            (onmessage env Chan.receiverChannel Msg.ready s)).state
        = ⟨(run env (pre ++ Settled.rejected :: rest)
            (onmessage env Chan.receiverChannel Msg.ready s)).state, [], Status.done⟩) ∧
    (s.senderPC = none → attachFails env s s.nextPC = true →
      (run env rest (onmessage env Chan.receiverChannel Msg.ready s)).status = Status.threw ∧
      (run env rest (onmessage env Chan.receiverChannel Msg.ready s)).state.senderPC
        = some s.nextPC ∧
      (run env rest (onmessage env Chan.receiverChannel Msg.ready s)).state.receiverPC
        = s.receiverPC ∧
      closed (run env rest (onmessage env Chan.receiverChannel Msg.ready s)).events = [] ∧
      (∀ e ∈ (run env rest (onmessage env Chan.receiverChannel Msg.ready s)).events,
        e.isPost = false) ∧
      onmessage env Chan.receiverChannel Msg.ready
          (run env rest (onmessage env Chan.receiverChannel Msg.ready s)).state
        = ⟨(run env rest (onmessage env Chan.receiverChannel Msg.ready s)).state, [],
            Status.done⟩) := by
  refine ⟨?_, ?_, ?_⟩
  · intro hr hl
    have ht : (run env (pre ++ Settled.rejected :: rest)
        (onmessage env Chan.receiverChannel (Msg.offer sdp) s)).status = Status.threw :=
      offer_rejected_threw env s sdp pre rest hr hp hl
    exact ⟨ht, (threw_keeps_session env s sdp sdp2 _).1 hr ht⟩
  · intro hs hl
    have he : onmessage env Chan.receiverChannel Msg.ready s = makeCall env s := by
      simp [onmessage, receiverChannel_onmessage, hs]
    have ht : (run env (pre ++ Settled.rejected :: rest)
        (onmessage env Chan.receiverChannel Msg.ready s)).status = Status.threw := by
      rw [he]
      exact ready_rejected_threw env s pre rest hp hl
    exact ⟨ht, (threw_keeps_session env s sdp sdp2 _).2 hs ht⟩
  · intro hs ha
    have he : onmessage env Chan.receiverChannel Msg.ready s = makeCall env s := by
      simp [onmessage, receiverChannel_onmessage, hs]
    have hc := (attachFails_iff env s).mp ha
    have hm : (makeCall env s).status = Status.threw := by
      unfold makeCall
      simp [hc]
    have ht : (run env rest (onmessage env Chan.receiverChannel Msg.ready s)).status
        = Status.threw := by
      rw [he, run_stop env _ _ (by intro k; simp [hm])]
      exact hm
    exact ⟨ht, (threw_keeps_session env s sdp sdp2 _).2 hs ht⟩

theorem engine_failure_keeps_session_witness :
    allFulfilled [Settled.fulfilled "" []] = true ∧ State.init.receiverPC = none ∧
    (run commonEnv ([Settled.fulfilled "" []] ++ Settled.rejected :: [])
      (onmessage commonEnv Chan.receiverChannel (Msg.offer "o") State.init)).state.receiverPC
      = some State.init.nextPC :=
  ⟨by decide, rfl,
    ((engine_failure_keeps_session commonEnv State.init "o" "p" [Settled.fulfilled "" []] []
      (by decide)).1 rfl (by decide)).2.1⟩

/-- C7 as stated fails: `setRemoteDescription` is rejected while
`handleOffer` creates the receiver session; the receiver slot, empty before,
holds the new engine afterwards, no `close()` has been invoked, and the next
`offer` is ignored. -/
theorem failed_offer_leaves_engine_in_slot :
    State.init.receiverPC = none ∧
    (run commonEnv [Settled.rejected]
      (onmessage commonEnv Chan.receiverChannel (Msg.offer "o") State.init)).status
      = Status.threw ∧
    (run commonEnv [Settled.rejected]
      (onmessage commonEnv Chan.receiverChannel (Msg.offer "o") State.init)).state.receiverPC
      = some 0 ∧
    closed (run commonEnv [Settled.rejected]
      (onmessage commonEnv Chan.receiverChannel (Msg.offer "o") State.init)).events = [] ∧
    (onmessage commonEnv Chan.receiverChannel (Msg.offer "p")
      (run commonEnv [Settled.rejected]
        (onmessage commonEnv Chan.receiverChannel (Msg.offer "o") State.init)).state).events
      = [] := by
  decide

/-- C8, as the code has it. `hangup` runs while `makeCall` or `handleOffer`
is suspended at an await point, and the handler is resumed later.  The
resumed handler does not check that its session is still there.  It changes no
slot itself, whatever the state it is resumed in.  Resumed with a rejected
promise it ends with that exception and does nothing else.  Resumed with a
fulfilled promise from its last await point (`setLocalDescription`) it
publishes the `offer` / `answer` all the same.  Resumed with a fulfilled
promise from an earlier await point it reads its slot again: if the slot is
empty it ends with an exception, with no engine call and nothing published;
if the slot holds an engine, which after a hangup is one a later `ready` or
`offer` has put there, it makes its next engine call on that engine and
waits again.  Right after the hangup both slots are empty, so that a handler
resumed before anything else has been handled makes no engine call and leaves
both slots empty. -/
theorem resume_after_hangup (env : Env) (s : State) (k : Cont) (r : Settled)
    (hk : k.negotiating = true) :
    (resume env k r s).state = s ∧
    (r = Settled.rejected →
      (resume env k r s).status = Status.threw ∧ (resume env k r s).events = []) ∧
    (∀ e, r ≠ Settled.rejected → k.lastPost = some e →
      (resume env k r s).status = Status.done ∧ (resume env k r s).events = [e]) ∧
    (r ≠ Settled.rejected → k.lastPost = none → k.slot s = none →
      (resume env k r s).status = Status.threw ∧ (resume env k r s).events = []) ∧
    (∀ pc, r ≠ Settled.rejected → k.lastPost = none → k.slot s = some pc →
      ∃ op j, (resume env k r s).events = [Event.engine pc op] ∧
        (resume env k r s).status = Status.await j ∧ j.negotiating = true) ∧
    (∀ t : State,
      (hangup env t).state.senderPC = none ∧ (hangup env t).state.receiverPC = none ∧
      k.slot (hangup env t).state = none ∧
      (resume env k r (hangup env t).state).state.senderPC = none ∧
      (resume env k r (hangup env t).state).state.receiverPC = none ∧
      (∀ e ∈ (resume env k r (hangup env t).state).events, e.isEngine = false) ∧
      ((resume env k r (hangup env t).state).status = Status.done ↔
        (r ≠ Settled.rejected ∧ k.lastPost.isSome = true))) := by
  refine ⟨(resume_negotiating env k r s hk).1, ?_, ?_, ?_, ?_, ?_⟩
  · intro hr
    subst hr
    cases k <;> simp [Cont.negotiating] at hk <;> simp [resume]
  · intro e hr hl
    cases k <;> simp [Cont.negotiating] at hk <;> cases r <;>
      simp_all [resume, Cont.lastPost]
  · intro hr hl hslot
    cases k <;> simp [Cont.negotiating] at hk <;> cases r <;>
      simp_all [resume, Cont.lastPost, Cont.slot]
  · intro pc hr hl hslot
    cases k <;> simp [Cont.negotiating] at hk <;> cases r <;>
      simp_all [resume, Cont.lastPost, Cont.slot, Cont.negotiating]
  · intro t
    obtain ⟨h1, h2⟩ := hangup_slots env t
    obtain ⟨a, b, _⟩ := resume_slots env k r (hangup env t).state
    refine ⟨h1, h2, ?_, by rw [a, h1], by rw [b, h2], ?_, ?_⟩ <;>
      cases k <;> simp [Cont.negotiating] at hk <;> cases r <;>
        simp [resume, h1, h2, Cont.lastPost, Cont.slot, Event.isEngine]

theorem resume_after_hangup_witness :
    Cont.negotiating Cont.makeCall_createOffer = true ∧
    (resume commonEnv Cont.makeCall_createOffer (Settled.fulfilled "o" []) callAgain).state
      = callAgain :=
  ⟨rfl, (resume_after_hangup commonEnv callAgain Cont.makeCall_createOffer
    (Settled.fulfilled "o" []) rfl).1⟩

/-- C8 as stated fails. The `ready` handler of a started tab is waiting for
`createOffer` when `hangup` runs: resumed with the offer, it throws.  One
await further on it is waiting for `setLocalDescription` when `hangup` runs:
resumed, it publishes the `offer`.  And when the tab has been started again
and has observed the new `ready` before the first handler is resumed from
`createOffer`, that handler calls `setLocalDescription` on the new engine and
the sender slot is not empty. -/
theorem hangup_mid_negotiation_not_ignored :
    offering.status = Status.await Cont.makeCall_createOffer ∧
    (resume commonEnv Cont.makeCall_createOffer (Settled.fulfilled "o" [])
      (hangup commonEnv offering.state).state).status = Status.threw ∧
    offerCreated.status = Status.await (Cont.makeCall_setLocalDescription "o") ∧
    (resume commonEnv (Cont.makeCall_setLocalDescription "o") (Settled.fulfilled "" [])
      (hangup commonEnv offerCreated.state).state).events
      = [Event.postMessage Chan.senderChannel (Msg.offer "o")] ∧
    offering.state.senderPC = some 0 ∧
    (resume commonEnv Cont.makeCall_createOffer (Settled.fulfilled "o" []) callAgain).events
      = [Event.engine 1 (EngineOp.setLocalDescription "o")] ∧
    (resume commonEnv Cont.makeCall_createOffer (Settled.fulfilled "o" [])
      callAgain).state.senderPC = some 1 := by
  decide

/-! ### `bye` -/

theorem isPost_of_isBye (e : Event) (h : e.isBye = true) : e.isPost = true := by
  cases e <;> simp_all [Event.isBye, Event.isPost]

theorem handleOffer_no_post (sdp : String) (s : State) :
    ∀ e ∈ (handleOffer sdp s).events, e.isPost = false := by
  cases hr : s.receiverPC with
  | some pc => rw [handleOffer_occupied sdp s (by simp [hr])]; simp
  | none => rw [handleOffer_empty sdp s hr]; simp [Event.isPost]

theorem onmessage_no_bye (env : Env) (ch : Chan) (m : Msg) (s : State) :
    ∀ e ∈ (onmessage env ch m s).events, e.isBye = false := by
  have key : (∀ e ∈ (onmessage env ch m s).events, e.isPost = false) →
      ∀ e ∈ (onmessage env ch m s).events, e.isBye = false := by
    intro h e he
    cases hb : e.isBye with
    | false => rfl
    | true => have := isPost_of_isBye e hb; rw [h e he] at this; cases this
  apply key
  cases ch with
  | senderChannel =>
    cases m <;> simp only [onmessage, senderChannel_onmessage, handleAnswer, handleCandidate] <;>
      repeat (first | simp [Event.isPost] | split)
  | receiverChannel =>
    cases m with
    | offer sdp => exact handleOffer_no_post sdp s
    | ready =>
      simp only [onmessage, receiverChannel_onmessage]
      split
      · simp
      · obtain ⟨es, he, _, hp⟩ := makeCall_events env s
        rw [he]
        intro e hmem
        rcases List.mem_cons.mp hmem with h | h
        · subst h; rfl
        · exact (hp e h).1
    | bye =>
      simp only [onmessage, receiverChannel_onmessage]
      split
      · exact hangup_no_post env s
      · simp
    | candidate c =>
      simp only [onmessage, receiverChannel_onmessage, handleCandidate]
      repeat (first | simp [Event.isPost] | split)
    | answer sdp => simp [onmessage, receiverChannel_onmessage]
    | unknown t => simp [onmessage, receiverChannel_onmessage]

theorem resume_no_bye (env : Env) (k : Cont) (r : Settled) (s : State)
    (hk : k ≠ Cont.hangupClick_hangup) :
    ∀ e ∈ (resume env k r s).events, e.isBye = false := by
  cases k <;> simp at hk <;> cases r <;> simp only [resume] <;>
    repeat (first | simp [Event.isBye] | split)

theorem segment_no_bye (env : Env) (i : Input) (s : State)
    (hi : ∀ r, i ≠ Input.settled Cont.hangupClick_hangup r) :
    ∀ e ∈ (segment env i s).events, e.isBye = false := by
  cases i with
  | message ch m => exact onmessage_no_bye env ch m s
  | startClick =>
    simp only [segment, startButton_onclick]
    repeat (first | simp [Event.isBye] | split)
  | hangupClick =>
    have hp := hangup_no_post env s
    have hb : ∀ e ∈ (hangup env s).events, e.isBye = false := by
      intro e he
      cases hb : e.isBye with
      | false => rfl
      | true => have := isPost_of_isBye e hb; rw [hp e he] at this; cases this
    simp only [segment, hangupButton_onclick]
    split
    · simp
    · rcases hangup_status env s with hs | hs <;> simp only [hs] <;> exact hb
  | icecandidate role e0 =>
    cases role <;> cases e0 <;> simp [segment, onicecandidate, candidateMessage, Event.isBye]
  | settled k r =>
    apply resume_no_bye
    intro hk
    exact hi r (by rw [hk])

/-- C9. A received `bye` is never echoed: on either channel and in every
state its handler, which has no await point, publishes nothing; with no sender
session it does nothing at all and leaves the state as it was.  No handler
publishes a `bye` except `hangupButton.onclick`, after its `await hangup()`;
that handler publishes at most one, and exactly one whenever `hangup()` returns,
which it does in `main.js`, whenever the local stream is held, and in every
reachable state in which the hangup button is enabled. -/
theorem bye_not_echoed (env : Env) (s : State) :
    (∀ ch, (∀ e ∈ (onmessage env ch Msg.bye s).events, e.isPost = false) ∧
      ∀ k, (onmessage env ch Msg.bye s).status ≠ Status.await k) ∧
    (s.senderPC = none →
      ∀ ch, (onmessage env ch Msg.bye s).events = [] ∧ (onmessage env ch Msg.bye s).state = s) ∧
    (∀ i, (∀ r, i ≠ Input.settled Cont.hangupClick_hangup r) →
      byes (segment env i s).events = 0) ∧
    byes (endCall env s).events ≤ 1 ∧
    ((env.variant = Variant.main ∨ s.localStream.isSome = true) →
      byes (endCall env s).events = 1) ∧
    (Reachable env s → s.hangupDisabled = false → byes (endCall env s).events = 1) := by
  have hdone : (env.variant = Variant.main ∨ s.localStream.isSome = true) →
      byes (endCall env s).events = 1 := by
    intro h
    rw [endCall_byes, if_pos ((endCall_done_iff env s).mpr h)]
  refine ⟨?_, ?_, ?_, ?_, hdone, ?_⟩
  · intro ch
    cases ch with
    | senderChannel => simp [onmessage, senderChannel_onmessage]
    | receiverChannel =>
      simp only [onmessage, receiverChannel_onmessage]
      split
      · refine ⟨hangup_no_post env s, ?_⟩
        intro k
        rcases hangup_status env s with h | h <;> simp [h]
      · simp
  · intro hs ch
    cases ch <;> simp [onmessage, senderChannel_onmessage, receiverChannel_onmessage, hs]
  · intro i hi
    have := segment_no_bye env i s hi
    simp only [byes, List.length_eq_zero, List.filter_eq_nil_iff]
    intro e he
    simp [this e he]
  · rw [endCall_byes]
    split <;> simp
  · intro hreach hd
    apply hdone
    cases hv : env.variant with
    | main => exact Or.inl rfl
    | common => exact Or.inr ((reachable_invariants env s hreach).2 hv hd)

theorem bye_not_echoed_witness :
    Reachable commonEnv afterSampleCall.1 ∧ afterSampleCall.1.hangupDisabled = false ∧
    byes (endCall commonEnv afterSampleCall.1).events = 1 :=
  ⟨history_reachable _ _ _ history_afterSampleCall, by decide,
    (bye_not_echoed commonEnv afterSampleCall.1).2.2.2.2.2
      (history_reachable _ _ _ history_afterSampleCall) (by decide)⟩

end Screenshare
